import Mathlib

/-!
# GoAppContext: configuration, credential decryption and connection lookup

A shallow embedding of `GoAppContext.go`.

* A Go `string` / `[]byte` is a list of bytes (`GoString`); the conversions
  `[]byte(s)` and `string(b)` are the identity.
* A call can end in three ways: it returns, it panics, or it ends the
  process through `log.Fatal` (`Outcome`).
* A Go `(T, error)` result is a pair whose second component is `none` for a
  `nil` error.
* Functions of the Go standard library and of third-party packages are not
  part of the repository.  The deterministic ones (`strings.ToLower`,
  `strings.TrimSpace`, `json.Unmarshal`, the AES block transformation) are the
  fields of `Stdlib`; the ones that talk to the outside (`os.LookupEnv`,
  `ioutil.ReadFile`, `syslog.Dial`, `sql.Open`, `db.Ping`) are the fields
  of `World`, the network and database ones passing an explicit world state.
  `encoding/hex` and the control flow of `crypto/aes` (key-size check, block
  length checks) are modelled concretely, since the behaviour of `DecryptAES`
  depends on them.
-/

namespace GoAppContext

/-! ## Basic types -/

/-- A Go string or byte slice: its sequence of bytes. -/
abbrev GoString := List Nat

/-- The bytes (UTF-8) of a string literal of the source. -/
def str (s : String) : GoString := (s.data.flatMap String.utf8EncodeChar).map UInt8.toNat

/-- Every element is a byte. -/
def IsBytes (s : GoString) : Prop := ∀ x ∈ s, x < 256

instance (s : GoString) : Decidable (IsBytes s) := by
  unfold IsBytes; infer_instance

/-- How a call ends: normal return, a run-time panic, or `log.Fatal`
(message printed, then `os.Exit(1)`). -/
inductive Outcome (α : Type) where
  | returned : α → Outcome α
  | panicked : GoString → Outcome α
  | fatal : GoString → Outcome α
  deriving DecidableEq

/-- The call ended in `log.Fatal`. -/
def Outcome.isFatal {α : Type} : Outcome α → Bool
  | .fatal _ => true
  | _ => false

/-- The call returned to its caller. -/
def Outcome.isReturned {α : Type} : Outcome α → Bool
  | .returned _ => true
  | _ => false

/-- The call panicked. -/
def Outcome.isPanicked {α : Type} : Outcome α → Bool
  | .panicked _ => true
  | _ => false

/-- A Go `error` value, identified with its message. -/
structure GoError where
  msg : GoString
  deriving DecidableEq

/-- The struct `DatabaseConnectionConfiguration`. -/
structure DatabaseConnectionConfiguration where
  BrandName : GoString := []
  BrandShortCode : GoString := []
  ConnectionName : GoString := []
  M2KWebServer : GoString := []
  Server : GoString := []
  Database : GoString := []
  DBUsername : GoString := []
  DBPassword : GoString := []
  deriving DecidableEq

/-- The struct `ApplicationConfiguration`; the zero value is `{}`. -/
structure ApplicationConfiguration where
  DatabaseConfigurations : List DatabaseConnectionConfiguration := []
  PapertrailEndPoint : GoString := []
  HttpRootPath : GoString := []
  HttpServerPort : GoString := []
  deriving DecidableEq

/-- A `*syslog.Writer` handle. -/
structure syslogWriter where
  id : Nat
  deriving DecidableEq

/-- A `*sql.DB` connection pool handle. -/
structure sqlDB where
  id : Nat
  deriving DecidableEq

/-- The struct `application`; a `nil` pointer field is `none`. -/
structure application where
  sysLog : Option syslogWriter := none
  glsDB : Option sqlDB := none
  hblDB : Option sqlDB := none
  cacheDB : Option sqlDB := none
  configSettings : ApplicationConfiguration := {}
  ApplicationName : GoString := []
  deriving DecidableEq

/-! ## The library functions the code calls -/

/-- The deterministic library functions used by the code. -/
structure Stdlib where
  /-- The function `strings.ToLower`. -/
  ToLower : GoString → GoString
  /-- The function `strings.TrimSpace`. -/
  TrimSpace : GoString → GoString
  /-- The call `json.Unmarshal(content, &cfg)` on a zero `cfg`: the filled
  configuration, or the error. -/
  Unmarshal : GoString → Except GoError ApplicationConfiguration
  /-- The AES encryption of one 16-byte block under an expanded key. -/
  aesEncryptBlock : GoString → GoString → GoString
  /-- The AES decryption of one 16-byte block under an expanded key. -/
  aesDecryptBlock : GoString → GoString → GoString

/-- The outside world the code talks to; `σ` is the state of the network and
of the database servers. -/
structure World (σ : Type) where
  /-- The process environment (`os.LookupEnv`): `none` for an unset variable. -/
  LookupEnv : GoString → Option GoString
  /-- The function `ioutil.ReadFile`. -/
  ReadFile : GoString → Except GoError GoString
  /-- The call `syslog.Dial(network, raddr, priority, tag)`. -/
  Dial : σ → GoString → GoString → Nat → GoString → Except GoError syslogWriter × σ
  /-- The call `sql.Open(driverName, dsn)`. -/
  sqlOpen : σ → GoString → GoString → Except GoError sqlDB × σ
  /-- The call `db.Ping()`: `none` for a `nil` error. -/
  Ping : σ → sqlDB → Option GoError × σ
  /-- The call `w.Info(msg)`; the code ignores what it returns. -/
  Info : σ → syslogWriter → GoString → σ

/-- The function `os.Getenv`: the value of the variable, empty when unset. -/
def os.Getenv {σ : Type} (W : World σ) (key : GoString) : GoString :=
  (W.LookupEnv key).getD []

/-! ## `GetDatabaseConfig` -/

/-- The condition of the `if` in the loop of `GetDatabaseConfig`. -/
def GetDatabaseConfig.matches (L : Stdlib) (lowercaseBrandOrShortName : GoString)
    (otr : DatabaseConnectionConfiguration) : Prop :=
  L.ToLower otr.BrandShortCode = lowercaseBrandOrShortName ∨
    L.ToLower otr.BrandName = lowercaseBrandOrShortName

instance (L : Stdlib) (l : GoString) (otr : DatabaseConnectionConfiguration) :
    Decidable (GetDatabaseConfig.matches L l otr) := by
  unfold GetDatabaseConfig.matches; infer_instance

/-- The `for ... range` loop of `GetDatabaseConfig`: `otrcfg` keeps its value
until an entry matches; the first match is assigned and the loop is left. -/
def GetDatabaseConfig.scan (L : Stdlib) (lowercaseBrandOrShortName : GoString)
    (otrcfg : DatabaseConnectionConfiguration) :
    List DatabaseConnectionConfiguration → DatabaseConnectionConfiguration
  | [] => otrcfg
  | otr :: rest =>
    if GetDatabaseConfig.matches L lowercaseBrandOrShortName otr then otr
    else GetDatabaseConfig.scan L lowercaseBrandOrShortName otrcfg rest

/-- The method `ApplicationConfiguration.GetDatabaseConfig`. -/
def GetDatabaseConfig (L : Stdlib) (appcfg : ApplicationConfiguration)
    (brandOrShortName : GoString) : Outcome DatabaseConnectionConfiguration :=
  if appcfg.DatabaseConfigurations.length = 0 then
    .fatal (str "No OTR configurations found")
  else
    let otrcfg : DatabaseConnectionConfiguration := {}
    let otrcfg := { otrcfg with ConnectionName := str "" }
    let lowercaseBrandOrShortName := L.ToLower brandOrShortName
    let otrcfg := GetDatabaseConfig.scan L lowercaseBrandOrShortName otrcfg
      appcfg.DatabaseConfigurations
    if otrcfg.ConnectionName = str "" then
      .fatal (str "Unknown brandnameorshortname in GetDatabaseConfig(): " ++ brandOrShortName)
    else
      .returned otrcfg

/-! ## `GetHTTPport`, `GetConfigurationFileSpec` -/

/-- The function `GetConfigurationFileSpec`. -/
def GetConfigurationFileSpec {σ : Type} (W : World σ) (appname : GoString) : GoString :=
  let configFileSpec := os.Getenv W (appname ++ str "_CONFIGFILE")
  if configFileSpec = str "" then str "config.json" else configFileSpec

/-- The function `GetHTTPport`. -/
def GetHTTPport {σ : Type} (W : World σ) (defaultPort : GoString) : GoString :=
  let port := os.Getenv W (str "ASPNETCORE_PORT")
  if port = str "" then
    let port := os.Getenv W (str "HTTP_PLATFORM_PORT")
    if port = str "" then defaultPort else port
  else port

/-! ## `encoding/hex` -/

/-- The table `reverseHexTable` of `encoding/hex`: the value of a hex digit,
`0xff` for every other byte. -/
def hex.reverseHexTable (c : Nat) : Nat :=
  if 48 ≤ c ∧ c ≤ 57 then c - 48
  else if 65 ≤ c ∧ c ≤ 70 then c - 55
  else if 97 ≤ c ∧ c ≤ 102 then c - 87
  else 0xff

/-- The errors of `encoding/hex`. -/
inductive hex.DecodeError where
  | InvalidByteError : Nat → hex.DecodeError
  | ErrLength : hex.DecodeError
  deriving DecidableEq

/-- The function `hex.Decode`, two input bytes per step: the bytes decoded
before the first error, and that error if there is one. -/
def hex.Decode : GoString → GoString × Option hex.DecodeError
  | [] => ([], none)
  | [p] =>
    if hex.reverseHexTable p > 0x0f then ([], some (.InvalidByteError p))
    else ([], some .ErrLength)
  | p :: q :: rest =>
    let a := hex.reverseHexTable p
    let b := hex.reverseHexTable q
    if a > 0x0f then ([], some (.InvalidByteError p))
    else if b > 0x0f then ([], some (.InvalidByteError q))
    else
      let r := hex.Decode rest
      (((a <<< 4) ||| b) :: r.1, r.2)

/-- The function `hex.DecodeString`: it returns the bytes decoded before the
error together with the error (its behaviour since Go 1.10). -/
def hex.DecodeString (s : GoString) : GoString × Option hex.DecodeError :=
  hex.Decode s

/-- The constant `hextable` of `encoding/hex`, indexed. -/
def hex.hextable (i : Nat) : Nat := (str "0123456789abcdef").getD i 0

/-- The function `hex.EncodeToString`: two lower-case digits per byte. -/
def hex.EncodeToString (src : GoString) : GoString :=
  src.flatMap (fun v => [hex.hextable (v >>> 4), hex.hextable (v &&& 0x0f)])

/-! ## `strconv.Itoa` on non-negative numbers -/

/-- The function `strconv.Itoa` for a non-negative argument. -/
def strconv.Itoa (n : Nat) : GoString := str (toString n)

/-! ## `crypto/aes`: key-size check and block-length checks -/

/-- An AES key length is 16, 24 or 32 bytes. -/
def aes.validKeySize (k : Nat) : Prop := k = 16 ∨ k = 24 ∨ k = 32

instance (k : Nat) : Decidable (aes.validKeySize k) := by
  unfold aes.validKeySize; infer_instance

/-- The error `aes.KeySizeError(k)`. -/
def aes.KeySizeError (k : Nat) : GoError :=
  ⟨str "crypto/aes: invalid key size " ++ strconv.Itoa k⟩

/-- The function `aes.NewCipher`: a cipher (identified by its key) for a key
of 16, 24 or 32 bytes, `KeySizeError` for any other length. -/
def aes.NewCipher (key : GoString) : Except GoError GoString :=
  if aes.validKeySize key.length then .ok key else .error (aes.KeySizeError key.length)

/-- The method `Decrypt(dst, src)` of the AES block: it panics unless both
slices hold a full block, and otherwise overwrites the first 16 bytes of `dst`
with the decryption of the first 16 bytes of `src`; the rest of `dst` is left
as it was. (Its third check, that the two blocks do not overlap, cannot fail
for the callers here: `dst` is always a fresh slice.) -/
def aes.Decrypt (L : Stdlib) (c : GoString) (dst src : GoString) : Outcome GoString :=
  if src.length < 16 then .panicked (str "crypto/aes: input not full block")
  else if dst.length < 16 then .panicked (str "crypto/aes: output not full block")
  else .returned (L.aesDecryptBlock c (src.take 16) ++ dst.drop 16)

/-- The method `Encrypt(dst, src)` of the AES block, the counterpart of
`Decrypt`. -/
def aes.Encrypt (L : Stdlib) (c : GoString) (dst src : GoString) : Outcome GoString :=
  if src.length < 16 then .panicked (str "crypto/aes: input not full block")
  else if dst.length < 16 then .panicked (str "crypto/aes: output not full block")
  else .returned (L.aesEncryptBlock c (src.take 16) ++ dst.drop 16)

/-! ## `DecryptAES` -/

/-- The function `DecryptAES`. The error of `hex.DecodeString` is discarded
and the bytes it returns are used. -/
def DecryptAES (L : Stdlib) (key : GoString) (ct : GoString) :
    Outcome (GoString × Option GoError) :=
  let ciphertext := (hex.DecodeString ct).1
  match aes.NewCipher key with
  | .error err => .returned (str "", some err)
  | .ok c =>
    let pt := List.replicate ciphertext.length 0
    match aes.Decrypt L c pt ciphertext with
    | .returned pt => .returned (pt, none)
    | .panicked m => .panicked m
    | .fatal m => .fatal m

/-! ## `GetConfiguration` -/

/-- The `for i, dbcfg := range cfg.DatabaseConfigurations` loop of
`GetConfiguration`, from index `i` on, with `todo` iterations left; `cfg` is
the configuration as updated so far. -/
def GetConfiguration.loop (L : Stdlib) (dbpwdPrivateKey : GoString) :
    Nat → Nat → ApplicationConfiguration → Outcome (ApplicationConfiguration × Option GoError)
  | 0, _, cfg => .returned (cfg, none)
  | todo + 1, i, cfg =>
    match cfg.DatabaseConfigurations[i]? with
    | none => .panicked (str "index out of range")
    | some dbcfg =>
      match DecryptAES L dbpwdPrivateKey (L.TrimSpace dbcfg.DBPassword) with
      | .panicked m => .panicked m
      | .fatal m => .fatal m
      | .returned (_, some err) => .returned ({}, some err)
      | .returned (dbPassword, none) =>
        let dbcfg := { dbcfg with DBPassword := dbPassword }
        let cfg := { cfg with DatabaseConfigurations := cfg.DatabaseConfigurations.set i dbcfg }
        GetConfiguration.loop L dbpwdPrivateKey todo (i + 1) cfg

/-- The function `GetConfiguration` (the `log.Println` lines only write to the
standard logger). -/
def GetConfiguration {σ : Type} (L : Stdlib) (W : World σ) (configurationfilespec : GoString)
    (dbpwdPrivateKey : GoString) : Outcome (ApplicationConfiguration × Option GoError) :=
  match W.ReadFile configurationfilespec with
  | .error err => .returned ({}, some err)
  | .ok content =>
    match L.Unmarshal content with
    | .error err => .returned ({}, some err)
    | .ok cfg =>
      GetConfiguration.loop L dbpwdPrivateKey cfg.DatabaseConfigurations.length 0 cfg

/-! ## Opening the database connections -/

/-- The function `openDB`: `sql.Open` followed by a `Ping`. -/
def openDB {σ : Type} (W : World σ) (s : σ) (dsn : GoString) :
    (Option sqlDB × Option GoError) × σ :=
  match W.sqlOpen s (str "mssql") dsn with
  | (.error err, s) => ((none, some err), s)
  | (.ok db, s) =>
    match W.Ping s db with
    | (some err, s) => ((none, some err), s)
    | (none, s) => ((some db, none), s)

/-- The function `OpenOTRconnection`. -/
def OpenOTRconnection {σ : Type} (L : Stdlib) (W : World σ) (s : σ) (appName : GoString)
    (cfg : ApplicationConfiguration) (otrname : GoString) (establishSession : Bool) :
    Outcome ((Option sqlDB × Option GoError) × σ) :=
  match GetDatabaseConfig L cfg otrname with
  | .fatal m => .fatal m
  | .panicked m => .panicked m
  | .returned otrcfg =>
    match openDB W s (str "server=" ++ otrcfg.Server ++ str ";database=" ++ otrcfg.Database
        ++ str ";user id=" ++ otrcfg.DBUsername ++ str ";password=" ++ otrcfg.DBPassword
        ++ str ";connection timeout=300;app name=" ++ appName) with
    | ((_, some err), s) =>
      .returned ((none, some ⟨str "Error opening database connection to " ++ otrname
        ++ str ": " ++ err.msg⟩), s)
    | ((db, none), s) =>
      if establishSession then
        match db with
        | none => .panicked (str "invalid memory address or nil pointer dereference")
        | some d =>
          match W.Ping s d with
          | (some err, s) =>
            .returned ((none, some ⟨str "Error pinging database " ++ otrname ++ str ": "
              ++ err.msg⟩), s)
          | (none, s) => .returned ((some d, none), s)
      else .returned ((db, none), s)

/-! ## `logEntry` -/

/-- One frame of the call stack: what `runtime.Caller` and
`runtime.FuncForPC(pc).Name()` report for it. -/
structure Frame where
  file : GoString
  line : Nat
  function : GoString
  deriving DecidableEq

/-- The function `runtime.Caller(skip)`, on the stack of the function that
calls it (frame 0 is that function itself); `none` when `ok` is false. -/
def runtime.Caller (stack : List Frame) (skip : Nat) : Option Frame := stack.get? skip

/-- The slice `s[strings.LastIndex(s, sep)+1:]` for a one-byte separator: what
follows the last separator, the whole string when there is none. -/
def afterLast (sep : Nat) (s : GoString) : GoString :=
  match s.reverse.indexOf? sep with
  | none => s
  | some k => s.drop (s.length - k)

/-- The function `logEntry`; `stack` is the call stack with the frame of
`logEntry` itself first. -/
def logEntry (stack : List Frame) (logMsg : GoString) (runtimeSkip : Nat) : Outcome GoString :=
  match runtime.Caller stack runtimeSkip with
  | none => .panicked (str "Could not get context info for logger!")
  | some fr =>
    let filename := afterLast 47 fr.file ++ str ":" ++ strconv.Itoa fr.line
    let funcname := fr.function
    let fn := afterLast 46 funcname
    .returned (str " file: " ++ filename ++ str ", function: " ++ fn ++ str ", msg: " ++ logMsg)

/-! ## `InitApplicationHandlerContext` -/

/-- The constant `syslog.LOG_ERR`. -/
def syslog.LOG_ERR : Nat := 3

/-- The function `InitApplicationHandlerContext`. `s` is the state of the
world at the call, `self` the frame of this function at its call of `logEntry`,
`callers` the frames below it and `inner` the frame of `logEntry`. A `nil`
context is `none`. -/
def InitApplicationHandlerContext {σ : Type} (L : Stdlib) (W : World σ) (s : σ)
    (inner self : Frame) (callers : List Frame)
    (appname : GoString) (dbpwdPrivateKey : GoString) :
    Outcome (Option application × Option GoError) :=
  match GetConfiguration L W (GetConfigurationFileSpec W appname) dbpwdPrivateKey with
  | .panicked m => .panicked m
  | .fatal m => .fatal m
  | .returned (_, some err) => .returned (none, some err)
  | .returned (cfg, none) =>
    match W.Dial s (str "udp") cfg.PapertrailEndPoint syslog.LOG_ERR appname with
    | (.error _, _) =>
      .returned (none, some ⟨str "FATAL ERROR: Unable to dial syslog on: "
        ++ cfg.PapertrailEndPoint⟩)
    | (.ok sl, s) =>
      match OpenOTRconnection L W s appname cfg (str "GLS") true with
      | .panicked m => .panicked m
      | .fatal m => .fatal m
      | .returned ((glsdb, _), s) =>
        match OpenOTRconnection L W s appname cfg (str "HBL") true with
        | .panicked m => .panicked m
        | .fatal m => .fatal m
        | .returned ((hbldb, _), s) =>
          let app : application := {}
          let app := { app with sysLog := some sl }
          let app := { app with glsDB := glsdb }
          let app := { app with hblDB := hbldb }
          let app := { app with cacheDB := none }
          let app := { app with configSettings := cfg }
          let app := { app with ApplicationName := appname }
          match logEntry (inner :: self :: callers)
              (str "Started Application: " ++ app.ApplicationName ++ str ", with http root: "
                ++ cfg.HttpRootPath ++ str ", on port # " ++ cfg.HttpServerPort) 1 with
          | .panicked m => .panicked m
          | .fatal m => .fatal m
          | .returned line =>
            let _s := W.Info s sl line
            .returned (some app, none)

/-! ## The AES block cipher of FIPS-197

The block transformation computed by `crypto/aes`, written byte by byte after
FIPS-197: state and round keys are lists of sixteen bytes, stored column by
column. It is the reference instance of the two AES fields of `Stdlib`. -/

/-- The AES S-box (the table `sbox0` of `crypto/aes`). -/
def aes.sbox0 : List Nat := [
  0x63, 0x7c, 0x77, 0x7b, 0xf2, 0x6b, 0x6f, 0xc5, 0x30, 0x01, 0x67, 0x2b, 0xfe, 0xd7, 0xab, 0x76,
  0xca, 0x82, 0xc9, 0x7d, 0xfa, 0x59, 0x47, 0xf0, 0xad, 0xd4, 0xa2, 0xaf, 0x9c, 0xa4, 0x72, 0xc0,
  0xb7, 0xfd, 0x93, 0x26, 0x36, 0x3f, 0xf7, 0xcc, 0x34, 0xa5, 0xe5, 0xf1, 0x71, 0xd8, 0x31, 0x15,
  0x04, 0xc7, 0x23, 0xc3, 0x18, 0x96, 0x05, 0x9a, 0x07, 0x12, 0x80, 0xe2, 0xeb, 0x27, 0xb2, 0x75,
  0x09, 0x83, 0x2c, 0x1a, 0x1b, 0x6e, 0x5a, 0xa0, 0x52, 0x3b, 0xd6, 0xb3, 0x29, 0xe3, 0x2f, 0x84,
  0x53, 0xd1, 0x00, 0xed, 0x20, 0xfc, 0xb1, 0x5b, 0x6a, 0xcb, 0xbe, 0x39, 0x4a, 0x4c, 0x58, 0xcf,
  0xd0, 0xef, 0xaa, 0xfb, 0x43, 0x4d, 0x33, 0x85, 0x45, 0xf9, 0x02, 0x7f, 0x50, 0x3c, 0x9f, 0xa8,
  0x51, 0xa3, 0x40, 0x8f, 0x92, 0x9d, 0x38, 0xf5, 0xbc, 0xb6, 0xda, 0x21, 0x10, 0xff, 0xf3, 0xd2,
  0xcd, 0x0c, 0x13, 0xec, 0x5f, 0x97, 0x44, 0x17, 0xc4, 0xa7, 0x7e, 0x3d, 0x64, 0x5d, 0x19, 0x73,
  0x60, 0x81, 0x4f, 0xdc, 0x22, 0x2a, 0x90, 0x88, 0x46, 0xee, 0xb8, 0x14, 0xde, 0x5e, 0x0b, 0xdb,
  0xe0, 0x32, 0x3a, 0x0a, 0x49, 0x06, 0x24, 0x5c, 0xc2, 0xd3, 0xac, 0x62, 0x91, 0x95, 0xe4, 0x79,
  0xe7, 0xc8, 0x37, 0x6d, 0x8d, 0xd5, 0x4e, 0xa9, 0x6c, 0x56, 0xf4, 0xea, 0x65, 0x7a, 0xae, 0x08,
  0xba, 0x78, 0x25, 0x2e, 0x1c, 0xa6, 0xb4, 0xc6, 0xe8, 0xdd, 0x74, 0x1f, 0x4b, 0xbd, 0x8b, 0x8a,
  0x70, 0x3e, 0xb5, 0x66, 0x48, 0x03, 0xf6, 0x0e, 0x61, 0x35, 0x57, 0xb9, 0x86, 0xc1, 0x1d, 0x9e,
  0xe1, 0xf8, 0x98, 0x11, 0x69, 0xd9, 0x8e, 0x94, 0x9b, 0x1e, 0x87, 0xe9, 0xce, 0x55, 0x28, 0xdf,
  0x8c, 0xa1, 0x89, 0x0d, 0xbf, 0xe6, 0x42, 0x68, 0x41, 0x99, 0x2d, 0x0f, 0xb0, 0x54, 0xbb, 0x16]

/-- The inverse AES S-box (the table `sbox1` of `crypto/aes`). -/
def aes.sbox1 : List Nat := [
  0x52, 0x09, 0x6a, 0xd5, 0x30, 0x36, 0xa5, 0x38, 0xbf, 0x40, 0xa3, 0x9e, 0x81, 0xf3, 0xd7, 0xfb,
  0x7c, 0xe3, 0x39, 0x82, 0x9b, 0x2f, 0xff, 0x87, 0x34, 0x8e, 0x43, 0x44, 0xc4, 0xde, 0xe9, 0xcb,
  0x54, 0x7b, 0x94, 0x32, 0xa6, 0xc2, 0x23, 0x3d, 0xee, 0x4c, 0x95, 0x0b, 0x42, 0xfa, 0xc3, 0x4e,
  0x08, 0x2e, 0xa1, 0x66, 0x28, 0xd9, 0x24, 0xb2, 0x76, 0x5b, 0xa2, 0x49, 0x6d, 0x8b, 0xd1, 0x25,
  0x72, 0xf8, 0xf6, 0x64, 0x86, 0x68, 0x98, 0x16, 0xd4, 0xa4, 0x5c, 0xcc, 0x5d, 0x65, 0xb6, 0x92,
  0x6c, 0x70, 0x48, 0x50, 0xfd, 0xed, 0xb9, 0xda, 0x5e, 0x15, 0x46, 0x57, 0xa7, 0x8d, 0x9d, 0x84,
  0x90, 0xd8, 0xab, 0x00, 0x8c, 0xbc, 0xd3, 0x0a, 0xf7, 0xe4, 0x58, 0x05, 0xb8, 0xb3, 0x45, 0x06,
  0xd0, 0x2c, 0x1e, 0x8f, 0xca, 0x3f, 0x0f, 0x02, 0xc1, 0xaf, 0xbd, 0x03, 0x01, 0x13, 0x8a, 0x6b,
  0x3a, 0x91, 0x11, 0x41, 0x4f, 0x67, 0xdc, 0xea, 0x97, 0xf2, 0xcf, 0xce, 0xf0, 0xb4, 0xe6, 0x73,
  0x96, 0xac, 0x74, 0x22, 0xe7, 0xad, 0x35, 0x85, 0xe2, 0xf9, 0x37, 0xe8, 0x1c, 0x75, 0xdf, 0x6e,
  0x47, 0xf1, 0x1a, 0x71, 0x1d, 0x29, 0xc5, 0x89, 0x6f, 0xb7, 0x62, 0x0e, 0xaa, 0x18, 0xbe, 0x1b,
  0xfc, 0x56, 0x3e, 0x4b, 0xc6, 0xd2, 0x79, 0x20, 0x9a, 0xdb, 0xc0, 0xfe, 0x78, 0xcd, 0x5a, 0xf4,
  0x1f, 0xdd, 0xa8, 0x33, 0x88, 0x07, 0xc7, 0x31, 0xb1, 0x12, 0x10, 0x59, 0x27, 0x80, 0xec, 0x5f,
  0x60, 0x51, 0x7f, 0xa9, 0x19, 0xb5, 0x4a, 0x0d, 0x2d, 0xe5, 0x7a, 0x9f, 0x93, 0xc9, 0x9c, 0xef,
  0xa0, 0xe0, 0x3b, 0x4d, 0xae, 0x2a, 0xf5, 0xb0, 0xc8, 0xeb, 0xbb, 0x3c, 0x83, 0x53, 0x99, 0x61,
  0x17, 0x2b, 0x04, 0x7e, 0xba, 0x77, 0xd6, 0x26, 0xe1, 0x69, 0x14, 0x63, 0x55, 0x21, 0x0c, 0x7d]

/-- Multiplication by `x` in GF(2^8) modulo `x^8 + x^4 + x^3 + x + 1`. -/
def aes.xtime (b : Nat) : Nat := if b < 128 then 2 * b else (2 * b) ^^^ 0x11b

/-- Multiplication by 3 in GF(2^8). -/
def aes.mul3 (b : Nat) : Nat := aes.xtime b ^^^ b
/-- Multiplication by 9 in GF(2^8). -/
def aes.mul9 (b : Nat) : Nat := aes.xtime (aes.xtime (aes.xtime b)) ^^^ b
/-- Multiplication by 11 in GF(2^8). -/
def aes.mul11 (b : Nat) : Nat := aes.xtime (aes.xtime (aes.xtime b)) ^^^ aes.xtime b ^^^ b
/-- Multiplication by 13 in GF(2^8). -/
def aes.mul13 (b : Nat) : Nat :=
  aes.xtime (aes.xtime (aes.xtime b)) ^^^ aes.xtime (aes.xtime b) ^^^ b
/-- Multiplication by 14 in GF(2^8). -/
def aes.mul14 (b : Nat) : Nat :=
  aes.xtime (aes.xtime (aes.xtime b)) ^^^ aes.xtime (aes.xtime b) ^^^ aes.xtime b

/-- The round constants of the key schedule, `x^(i-1)` in GF(2^8). -/
def aes.rcon : Nat → Nat
  | 0 => 0
  | 1 => 1
  | i + 2 => aes.xtime (aes.rcon (i + 1))

/-- SubBytes: the S-box on every byte. -/
def aes.subBytes (s : GoString) : GoString := s.map (fun b => aes.sbox0.getD b 0)

/-- InvSubBytes: the inverse S-box on every byte. -/
def aes.invSubBytes (s : GoString) : GoString := s.map (fun b => aes.sbox1.getD b 0)

/-- ShiftRows on a state stored column by column. -/
def aes.shiftRows : GoString → GoString
  | [s0, s1, s2, s3, s4, s5, s6, s7, s8, s9, s10, s11, s12, s13, s14, s15] =>
    [s0, s5, s10, s15, s4, s9, s14, s3, s8, s13, s2, s7, s12, s1, s6, s11]
  | s => s

/-- InvShiftRows on a state stored column by column. -/
def aes.invShiftRows : GoString → GoString
  | [s0, s1, s2, s3, s4, s5, s6, s7, s8, s9, s10, s11, s12, s13, s14, s15] =>
    [s0, s13, s10, s7, s4, s1, s14, s11, s8, s5, s2, s15, s12, s9, s6, s3]
  | s => s

/-- MixColumns on the columns of the state. -/
def aes.mixColumns : GoString → GoString
  | a :: b :: c :: d :: rest =>
    (aes.xtime a ^^^ aes.mul3 b ^^^ c ^^^ d) ::
    (a ^^^ aes.xtime b ^^^ aes.mul3 c ^^^ d) ::
    (a ^^^ b ^^^ aes.xtime c ^^^ aes.mul3 d) ::
    (aes.mul3 a ^^^ b ^^^ c ^^^ aes.xtime d) :: aes.mixColumns rest
  | s => s

/-- InvMixColumns on the columns of the state. -/
def aes.invMixColumns : GoString → GoString
  | a :: b :: c :: d :: rest =>
    (aes.mul14 a ^^^ aes.mul11 b ^^^ aes.mul13 c ^^^ aes.mul9 d) ::
    (aes.mul9 a ^^^ aes.mul14 b ^^^ aes.mul11 c ^^^ aes.mul13 d) ::
    (aes.mul13 a ^^^ aes.mul9 b ^^^ aes.mul14 c ^^^ aes.mul11 d) ::
    (aes.mul11 a ^^^ aes.mul13 b ^^^ aes.mul9 c ^^^ aes.mul14 d) :: aes.invMixColumns rest
  | s => s

/-- AddRoundKey: byte-wise exclusive or with the round key. -/
def aes.addRoundKey (s rk : GoString) : GoString := List.zipWith (· ^^^ ·) s rk

/-- The key schedule loop: `w` holds the words computed so far (as bytes),
`i` is the index of the next word and `n` the number of words still to add. -/
def aes.expandLoop (nk : Nat) : Nat → Nat → GoString → GoString
  | 0, _, w => w
  | n + 1, i, w =>
    let t := (w.drop (4 * (i - 1))).take 4
    let t :=
      if i % nk = 0 then
        List.zipWith (· ^^^ ·) (aes.subBytes (t.drop 1 ++ t.take 1)) [aes.rcon (i / nk), 0, 0, 0]
      else if 6 < nk ∧ i % nk = 4 then aes.subBytes t
      else t
    aes.expandLoop nk n (i + 1) (w ++ List.zipWith (· ^^^ ·) ((w.drop (4 * (i - nk))).take 4) t)

/-- The expanded key: `4 * (Nr + 1)` words, `Nr = Nk + 6`. -/
def aes.expandKey (key : GoString) : GoString :=
  let nk := key.length / 4
  aes.expandLoop nk (4 * (nk + 6 + 1) - nk) nk key

/-- The round keys: the expanded key cut into blocks of 16 bytes. -/
def aes.roundKeys : Nat → GoString → List GoString
  | 0, _ => []
  | n + 1, w => w.take 16 :: aes.roundKeys n (w.drop 16)

/-- One inner round of the cipher. -/
def aes.encRound (s rk : GoString) : GoString :=
  aes.addRoundKey (aes.mixColumns (aes.shiftRows (aes.subBytes s))) rk

/-- One inner round of the inverse cipher. -/
def aes.decRound (s rk : GoString) : GoString :=
  aes.invSubBytes (aes.invShiftRows (aes.invMixColumns (aes.addRoundKey s rk)))

/-- The inner rounds of the cipher, first round key first. -/
def aes.encRounds : GoString → List GoString → GoString
  | s, [] => s
  | s, rk :: rest => aes.encRounds (aes.encRound s rk) rest

/-- The inner rounds of the inverse cipher, undoing the last round first. -/
def aes.decRounds : GoString → List GoString → GoString
  | s, [] => s
  | s, rk :: rest => aes.decRound (aes.decRounds s rest) rk

/-- The cipher of FIPS-197 on one block, for given round keys. -/
def aes.cipher (rks : List GoString) (b : GoString) : GoString :=
  match rks with
  | [] => b
  | rk0 :: rest =>
    aes.addRoundKey
      (aes.shiftRows (aes.subBytes (aes.encRounds (aes.addRoundKey b rk0) rest.dropLast)))
      (rest.getLastD [])

/-- The inverse cipher of FIPS-197 on one block, for given round keys. -/
def aes.invCipher (rks : List GoString) (b : GoString) : GoString :=
  match rks with
  | [] => b
  | rk0 :: rest =>
    aes.addRoundKey
      (aes.decRounds (aes.invSubBytes (aes.invShiftRows (aes.addRoundKey b (rest.getLastD []))))
        rest.dropLast)
      rk0

/-- AES encryption of one block under `key`. -/
def aes.encryptBlock (key b : GoString) : GoString :=
  aes.cipher (aes.roundKeys (key.length / 4 + 7) (aes.expandKey key)) b

/-- AES decryption of one block under `key`. -/
def aes.decryptBlock (key b : GoString) : GoString :=
  aes.invCipher (aes.roundKeys (key.length / 4 + 7) (aes.expandKey key)) b

/-- A block: sixteen bytes. -/
def aes.IsBlock (s : GoString) : Prop := s.length = 16 ∧ IsBytes s

instance (s : GoString) : Decidable (aes.IsBlock s) := by
  unfold aes.IsBlock; infer_instance

/-- What the code relies on from the block functions of `crypto/aes`: under
a key of 16, 24 or 32 bytes they map blocks to blocks, and decryption undoes
encryption. -/
structure Stdlib.AESLawful (L : Stdlib) : Prop where
  encrypt_block : ∀ key b, aes.validKeySize key.length → IsBytes key → aes.IsBlock b →
    aes.IsBlock (L.aesEncryptBlock key b)
  decrypt_block : ∀ key b, aes.validKeySize key.length → IsBytes key → aes.IsBlock b →
    aes.IsBlock (L.aesDecryptBlock key b)
  decrypt_encrypt : ∀ key b, aes.validKeySize key.length → IsBytes key → aes.IsBlock b →
    L.aesDecryptBlock key (L.aesEncryptBlock key b) = b

/-! ## A reference library, a sample configuration file and a sample world -/

/-- The function `strings.ToLower` on ASCII text: `A` to `Z` become `a` to `z`. -/
def asciiToLower (s : GoString) : GoString :=
  s.map (fun c => if 65 ≤ c ∧ c ≤ 90 then c + 32 else c)

/-- The ASCII white space of `strings.TrimSpace`: tab, line feed, vertical
tab, form feed, carriage return, space. -/
def isAsciiSpace (c : Nat) : Bool :=
  c == 9 || c == 10 || c == 11 || c == 12 || c == 13 || c == 32

/-- The function `strings.TrimSpace` on ASCII text. -/
def asciiTrimSpace (s : GoString) : GoString :=
  ((s.dropWhile isAsciiSpace).reverse.dropWhile isAsciiSpace).reverse

/-- The text of a sample configuration file with two connections. -/
def sampleContent : GoString :=
  str ("\x7b\"Connections\":[" ++
    "\x7b\"BrandName\":\"Great Lakes\",\"BrandShortCode\":\"GLS\"," ++
    "\"ConnectionName\":\"gls-main\",\"M2KWebServer\":\"\",\"Server\":\"db1\"," ++
    "\"Database\":\"gls\",\"DBUsername\":\"app\"," ++
    "\"DBPassword\":\" c57db58422b2870fcbd9dc60e68c000c \"\x7d," ++
    "\x7b\"BrandName\":\"Harbour Line\",\"BrandShortCode\":\"HBL\"," ++
    "\"ConnectionName\":\"hbl-main\",\"M2KWebServer\":\"\",\"Server\":\"db2\"," ++
    "\"Database\":\"hbl\",\"DBUsername\":\"app\"," ++
    "\"DBPassword\":\"6098269E74F9C5E83C1C263A058BB704\"\x7d]," ++
    "\"PapertrailEndPoint\":\"logs.example.com:514\"," ++
    "\"HttpRootPath\":\"/api\",\"HttpServerPort\":\"8080\"\x7d")

/-- What `json.Unmarshal` yields for `sampleContent`. -/
def sampleParsed : ApplicationConfiguration where
  DatabaseConfigurations := [
    { BrandName := str "Great Lakes", BrandShortCode := str "GLS",
      ConnectionName := str "gls-main", M2KWebServer := str "", Server := str "db1",
      Database := str "gls", DBUsername := str "app",
      DBPassword := str " c57db58422b2870fcbd9dc60e68c000c " },
    { BrandName := str "Harbour Line", BrandShortCode := str "HBL",
      ConnectionName := str "hbl-main", M2KWebServer := str "", Server := str "db2",
      Database := str "hbl", DBUsername := str "app",
      DBPassword := str "6098269E74F9C5E83C1C263A058BB704" }]
  PapertrailEndPoint := str "logs.example.com:514"
  HttpRootPath := str "/api"
  HttpServerPort := str "8080"

/-- The text of a second sample file: one connection, with an empty password. -/
def blankContent : GoString :=
  str ("\x7b\"Connections\":[\x7b\"BrandShortCode\":\"GLS\"," ++
    "\"ConnectionName\":\"gls-main\",\"DBPassword\":\"\"\x7d]\x7d")

/-- What `json.Unmarshal` yields for `blankContent`. -/
def blankParsed : ApplicationConfiguration where
  DatabaseConfigurations := [{ BrandShortCode := str "GLS", ConnectionName := str "gls-main" }]

/-- The reference library: ASCII case folding and trimming, the AES of
FIPS-197, and a `json.Unmarshal` that knows the two sample files and rejects
any other text. -/
def referenceLib : Stdlib where
  ToLower := asciiToLower
  TrimSpace := asciiTrimSpace
  Unmarshal := fun content =>
    if content = sampleContent then .ok sampleParsed
    else if content = blankContent then .ok blankParsed
    else .error ⟨str "invalid character looking for beginning of value"⟩
  aesEncryptBlock := aes.encryptBlock
  aesDecryptBlock := aes.decryptBlock

/-- A sample world. Its state counts the calls made so far. The file
`config.json` holds the sample text and `blank.json` the second one, only
`HTTP_PLATFORM_PORT` is set, the log sink accepts the dial, `sql.Open` hands
out a pool and every `Ping` is refused. -/
def sampleWorld : World Nat where
  LookupEnv := fun k => if k = str "HTTP_PLATFORM_PORT" then some (str "9090") else none
  ReadFile := fun path =>
    if path = str "config.json" then .ok sampleContent
    else if path = str "blank.json" then .ok blankContent
    else .error ⟨str "open " ++ path ++ str ": no such file or directory"⟩
  Dial := fun s _ _ _ _ => (.ok ⟨s⟩, s + 1)
  sqlOpen := fun s _ _ => (.ok ⟨s⟩, s + 1)
  Ping := fun s _ => (some ⟨str "dial tcp: connection refused"⟩, s + 1)
  Info := fun s _ _ => s + 1

/-- The sample world with a log sink that cannot be reached. -/
def deafWorld : World Nat :=
  { sampleWorld with Dial := fun s _ _ _ _ => (.error ⟨str "dial udp: no such host"⟩, s + 1) }

/-- A world without environment variables and without files. -/
def emptyWorld : World Nat where
  LookupEnv := fun _ => none
  ReadFile := fun path => .error ⟨str "open " ++ path ++ str ": no such file or directory"⟩
  Dial := fun s _ _ _ _ => (.error ⟨str "dial udp: missing address"⟩, s + 1)
  sqlOpen := fun s _ _ => (.ok ⟨s⟩, s + 1)
  Ping := fun s _ => (none, s + 1)
  Info := fun s _ _ => s + 1

/-- The key of the test file, 32 bytes. -/
def sampleKey : GoString := str "dummy private key goes here....."

/-- The frame of `logEntry` at its call of `runtime.Caller`. -/
def logEntryFrame : Frame :=
  ⟨str "/src/GoAppContext/GoAppContext.go", 214, str "GoAppContext.logEntry"⟩

/-- The frame of `InitApplicationHandlerContext` at its call of `logEntry`. -/
def initFrame : Frame :=
  ⟨str "/src/GoAppContext/GoAppContext.go", 88,
    str "GoAppContext.InitApplicationHandlerContext"⟩

/-- What loading the sample file with the key of the test file yields: the
two passwords are replaced by the decrypted blocks. -/
def sampleLoaded : ApplicationConfiguration :=
  { sampleParsed with DatabaseConfigurations := [
    { BrandName := str "Great Lakes", BrandShortCode := str "GLS",
      ConnectionName := str "gls-main", M2KWebServer := str "", Server := str "db1",
      Database := str "gls", DBUsername := str "app",
      DBPassword := str "secret123" ++ List.replicate 7 0 },
    { BrandName := str "Harbour Line", BrandShortCode := str "HBL",
      ConnectionName := str "hbl-main", M2KWebServer := str "", Server := str "db2",
      Database := str "hbl", DBUsername := str "app",
      DBPassword := str "0123456789abcdef" }] }

/-- A configuration whose only entry has the short code "GLS" and no
connection name. -/
def unnamedConfig : ApplicationConfiguration where
  DatabaseConfigurations := [{ BrandName := str "Great Lakes", BrandShortCode := str "GLS" }]


/-! # The reference AES is lawful -/

/-! ### Arithmetic of GF(2^8) -/

theorem aes.xtime_eq : ∀ a < 256, aes.xtime a = (2 * a) ^^^ (0x11b * (a / 128)) := by decide!

theorem aes.xtime_lt : ∀ a < 256, aes.xtime a < 256 := by decide!

theorem aes.two_mul_xor (a b : Nat) : 2 * (a ^^^ b) = (2 * a) ^^^ (2 * b) := by
  have h1 : ((2 * a) ^^^ (2 * b)) / 2 = a ^^^ b := by
    rw [Nat.xor_div_two]; simp
  have h2 : ((2 * a) ^^^ (2 * b)) % 2 = 0 := by
    rw [Nat.xor_mod_two_eq]; omega
  omega

theorem aes.xor_div_128 (a b : Nat) : (a ^^^ b) / 128 = (a / 128) ^^^ (b / 128) := by
  have h : ∀ x : Nat, x / 128 = x / 2 / 2 / 2 / 2 / 2 / 2 / 2 := by intro x; omega
  rw [h (a ^^^ b), h a, h b]
  simp only [Nat.xor_div_two]

theorem aes.poly_mul_xor : ∀ x < 2, ∀ y < 2, 0x11b * (x ^^^ y) = (0x11b * x) ^^^ (0x11b * y) := by
  decide

theorem aes.xtime_xor (a b : Nat) (ha : a < 256) (hb : b < 256) :
    aes.xtime (a ^^^ b) = aes.xtime a ^^^ aes.xtime b := by
  have hab : a ^^^ b < 256 := Nat.xor_lt_two_pow (n := 8) ha hb
  rw [aes.xtime_eq _ hab, aes.xtime_eq _ ha, aes.xtime_eq _ hb, aes.two_mul_xor, aes.xor_div_128,
    aes.poly_mul_xor _ (by omega) _ (by omega)]
  ac_rfl

theorem aes.mul_lt : ∀ a < 256, aes.mul3 a < 256 ∧ aes.mul9 a < 256 ∧ aes.mul11 a < 256 ∧
    aes.mul13 a < 256 ∧ aes.mul14 a < 256 := by decide!

theorem aes.xor_lt {a b : Nat} (ha : a < 256) (hb : b < 256) : a ^^^ b < 256 :=
  Nat.xor_lt_two_pow (n := 8) ha hb

theorem aes.mul9_xor (a b : Nat) (ha : a < 256) (hb : b < 256) :
    aes.mul9 (a ^^^ b) = aes.mul9 a ^^^ aes.mul9 b := by
  have h1 := aes.xtime_lt a ha
  have h2 := aes.xtime_lt b hb
  have h3 := aes.xtime_lt _ h1
  have h4 := aes.xtime_lt _ h2
  simp only [aes.mul9, aes.xtime_xor _ _ ha hb, aes.xtime_xor _ _ h1 h2, aes.xtime_xor _ _ h3 h4]
  ac_rfl

theorem aes.mul11_xor (a b : Nat) (ha : a < 256) (hb : b < 256) :
    aes.mul11 (a ^^^ b) = aes.mul11 a ^^^ aes.mul11 b := by
  have h1 := aes.xtime_lt a ha
  have h2 := aes.xtime_lt b hb
  have h3 := aes.xtime_lt _ h1
  have h4 := aes.xtime_lt _ h2
  simp only [aes.mul11, aes.xtime_xor _ _ ha hb, aes.xtime_xor _ _ h1 h2, aes.xtime_xor _ _ h3 h4]
  ac_rfl

theorem aes.mul13_xor (a b : Nat) (ha : a < 256) (hb : b < 256) :
    aes.mul13 (a ^^^ b) = aes.mul13 a ^^^ aes.mul13 b := by
  have h1 := aes.xtime_lt a ha
  have h2 := aes.xtime_lt b hb
  have h3 := aes.xtime_lt _ h1
  have h4 := aes.xtime_lt _ h2
  simp only [aes.mul13, aes.xtime_xor _ _ ha hb, aes.xtime_xor _ _ h1 h2, aes.xtime_xor _ _ h3 h4]
  ac_rfl

theorem aes.mul14_xor (a b : Nat) (ha : a < 256) (hb : b < 256) :
    aes.mul14 (a ^^^ b) = aes.mul14 a ^^^ aes.mul14 b := by
  have h1 := aes.xtime_lt a ha
  have h2 := aes.xtime_lt b hb
  have h3 := aes.xtime_lt _ h1
  have h4 := aes.xtime_lt _ h2
  simp only [aes.mul14, aes.xtime_xor _ _ ha hb, aes.xtime_xor _ _ h1 h2, aes.xtime_xor _ _ h3 h4]
  ac_rfl

/-- A map that respects exclusive or on bytes respects it on four bytes. -/
theorem aes.linear4 (f : Nat → Nat)
    (hf : ∀ a b, a < 256 → b < 256 → f (a ^^^ b) = f a ^^^ f b)
    (p q r s : Nat) (hp : p < 256) (hq : q < 256) (hr : r < 256) (hs : s < 256) :
    f (p ^^^ q ^^^ r ^^^ s) = f p ^^^ f q ^^^ f r ^^^ f s := by
  rw [hf _ _ (aes.xor_lt (aes.xor_lt hp hq) hr) hs, hf _ _ (aes.xor_lt hp hq) hr, hf _ _ hp hq]

/-- The product of the InvMixColumns and MixColumns matrices is the identity,
entry by entry. -/
theorem aes.matrix_entries : ∀ a < 256,
    (aes.mul14 (aes.xtime a) ^^^ aes.mul11 a ^^^ aes.mul13 a ^^^ aes.mul9 (aes.mul3 a) = a ∧
     aes.mul14 (aes.mul3 a) ^^^ aes.mul11 (aes.xtime a) ^^^ aes.mul13 a ^^^ aes.mul9 a = 0 ∧
     aes.mul14 a ^^^ aes.mul11 (aes.mul3 a) ^^^ aes.mul13 (aes.xtime a) ^^^ aes.mul9 a = 0 ∧
     aes.mul14 a ^^^ aes.mul11 a ^^^ aes.mul13 (aes.mul3 a) ^^^ aes.mul9 (aes.xtime a) = 0) ∧
    (aes.mul9 (aes.xtime a) ^^^ aes.mul14 a ^^^ aes.mul11 a ^^^ aes.mul13 (aes.mul3 a) = 0 ∧
     aes.mul9 (aes.mul3 a) ^^^ aes.mul14 (aes.xtime a) ^^^ aes.mul11 a ^^^ aes.mul13 a = a ∧
     aes.mul9 a ^^^ aes.mul14 (aes.mul3 a) ^^^ aes.mul11 (aes.xtime a) ^^^ aes.mul13 a = 0 ∧
     aes.mul9 a ^^^ aes.mul14 a ^^^ aes.mul11 (aes.mul3 a) ^^^ aes.mul13 (aes.xtime a) = 0) ∧
    (aes.mul13 (aes.xtime a) ^^^ aes.mul9 a ^^^ aes.mul14 a ^^^ aes.mul11 (aes.mul3 a) = 0 ∧
     aes.mul13 (aes.mul3 a) ^^^ aes.mul9 (aes.xtime a) ^^^ aes.mul14 a ^^^ aes.mul11 a = 0 ∧
     aes.mul13 a ^^^ aes.mul9 (aes.mul3 a) ^^^ aes.mul14 (aes.xtime a) ^^^ aes.mul11 a = a ∧
     aes.mul13 a ^^^ aes.mul9 a ^^^ aes.mul14 (aes.mul3 a) ^^^ aes.mul11 (aes.xtime a) = 0) ∧
    (aes.mul11 (aes.xtime a) ^^^ aes.mul13 a ^^^ aes.mul9 a ^^^ aes.mul14 (aes.mul3 a) = 0 ∧
     aes.mul11 (aes.mul3 a) ^^^ aes.mul13 (aes.xtime a) ^^^ aes.mul9 a ^^^ aes.mul14 a = 0 ∧
     aes.mul11 a ^^^ aes.mul13 (aes.mul3 a) ^^^ aes.mul9 (aes.xtime a) ^^^ aes.mul14 a = 0 ∧
     aes.mul11 a ^^^ aes.mul13 a ^^^ aes.mul9 (aes.mul3 a) ^^^ aes.mul14 (aes.xtime a) = a) := by
  decide!

/-- Sixteen terms grouped by rows are the same exclusive or grouped by columns. -/
theorem aes.regroup (t1 t2 t3 t4 u1 u2 u3 u4 v1 v2 v3 v4 w1 w2 w3 w4 x y z w : Nat)
    (ht : t1 ^^^ t2 ^^^ t3 ^^^ t4 = x) (hu : u1 ^^^ u2 ^^^ u3 ^^^ u4 = y)
    (hv : v1 ^^^ v2 ^^^ v3 ^^^ v4 = z) (hw : w1 ^^^ w2 ^^^ w3 ^^^ w4 = w) :
    (t1 ^^^ u1 ^^^ v1 ^^^ w1) ^^^ (t2 ^^^ u2 ^^^ v2 ^^^ w2) ^^^ (t3 ^^^ u3 ^^^ v3 ^^^ w3) ^^^
      (t4 ^^^ u4 ^^^ v4 ^^^ w4) = x ^^^ y ^^^ z ^^^ w := by
  rw [← ht, ← hu, ← hv, ← hw]
  ac_rfl

/-- InvMixColumns undoes MixColumns on one column of bytes. -/
theorem aes.invMix_mix_column (a b c d : Nat) (ha : a < 256) (hb : b < 256) (hc : c < 256)
    (hd : d < 256) :
    aes.invMixColumns (aes.mixColumns [a, b, c, d]) = [a, b, c, d] := by
  obtain ⟨⟨a1, a2, a3, a4⟩, ⟨a5, a6, a7, a8⟩, ⟨a9, a10, a11, a12⟩, ⟨a13, a14, a15, a16⟩⟩ :=
    aes.matrix_entries a ha
  obtain ⟨⟨b1, b2, b3, b4⟩, ⟨b5, b6, b7, b8⟩, ⟨b9, b10, b11, b12⟩, ⟨b13, b14, b15, b16⟩⟩ :=
    aes.matrix_entries b hb
  obtain ⟨⟨c1, c2, c3, c4⟩, ⟨c5, c6, c7, c8⟩, ⟨c9, c10, c11, c12⟩, ⟨c13, c14, c15, c16⟩⟩ :=
    aes.matrix_entries c hc
  obtain ⟨⟨d1, d2, d3, d4⟩, ⟨d5, d6, d7, d8⟩, ⟨d9, d10, d11, d12⟩, ⟨d13, d14, d15, d16⟩⟩ :=
    aes.matrix_entries d hd
  have xa := aes.xtime_lt a ha
  have xb := aes.xtime_lt b hb
  have xc := aes.xtime_lt c hc
  have xd := aes.xtime_lt d hd
  have ma := (aes.mul_lt a ha).1
  have mb := (aes.mul_lt b hb).1
  have mc := (aes.mul_lt c hc).1
  have md := (aes.mul_lt d hd).1
  simp only [aes.mixColumns, aes.invMixColumns]
  rw [aes.linear4 _ aes.mul14_xor _ _ _ _ xa mb hc hd, aes.linear4 _ aes.mul11_xor _ _ _ _ ha xb mc hd,
    aes.linear4 _ aes.mul13_xor _ _ _ _ ha hb xc md, aes.linear4 _ aes.mul9_xor _ _ _ _ ma hb hc xd,
    aes.linear4 _ aes.mul9_xor _ _ _ _ xa mb hc hd, aes.linear4 _ aes.mul14_xor _ _ _ _ ha xb mc hd,
    aes.linear4 _ aes.mul11_xor _ _ _ _ ha hb xc md, aes.linear4 _ aes.mul13_xor _ _ _ _ ma hb hc xd,
    aes.linear4 _ aes.mul13_xor _ _ _ _ xa mb hc hd, aes.linear4 _ aes.mul9_xor _ _ _ _ ha xb mc hd,
    aes.linear4 _ aes.mul14_xor _ _ _ _ ha hb xc md, aes.linear4 _ aes.mul11_xor _ _ _ _ ma hb hc xd,
    aes.linear4 _ aes.mul11_xor _ _ _ _ xa mb hc hd, aes.linear4 _ aes.mul13_xor _ _ _ _ ha xb mc hd,
    aes.linear4 _ aes.mul9_xor _ _ _ _ ha hb xc md, aes.linear4 _ aes.mul14_xor _ _ _ _ ma hb hc xd]
  rw [aes.regroup _ _ _ _ _ _ _ _ _ _ _ _ _ _ _ _ _ _ _ _ a1 b2 c3 d4,
    aes.regroup _ _ _ _ _ _ _ _ _ _ _ _ _ _ _ _ _ _ _ _ a5 b6 c7 d8,
    aes.regroup _ _ _ _ _ _ _ _ _ _ _ _ _ _ _ _ _ _ _ _ a9 b10 c11 d12,
    aes.regroup _ _ _ _ _ _ _ _ _ _ _ _ _ _ _ _ _ _ _ _ a13 b14 c15 d16]
  simp

/-! ### The steps of the cipher on a state -/

theorem IsBytes.nil : IsBytes [] := by
  intro x hx; cases hx

theorem IsBytes.cons {a : Nat} {s : GoString} (ha : a < 256) (hs : IsBytes s) :
    IsBytes (a :: s) := by
  intro x hx
  rcases List.mem_cons.1 hx with h | h
  · exact h ▸ ha
  · exact hs x h

theorem IsBytes.head {a : Nat} {s : GoString} (h : IsBytes (a :: s)) : a < 256 :=
  h a (List.mem_cons_self a s)

theorem IsBytes.tail {a : Nat} {s : GoString} (h : IsBytes (a :: s)) : IsBytes s :=
  fun x hx => h x (List.mem_cons_of_mem a hx)

theorem IsBytes.append {s t : GoString} (hs : IsBytes s) (ht : IsBytes t) : IsBytes (s ++ t) := by
  intro x hx
  rcases List.mem_append.1 hx with h | h
  · exact hs x h
  · exact ht x h

theorem IsBytes.take {s : GoString} (hs : IsBytes s) (n : Nat) : IsBytes (s.take n) :=
  fun x hx => hs x (List.mem_of_mem_take hx)

theorem IsBytes.drop {s : GoString} (hs : IsBytes s) (n : Nat) : IsBytes (s.drop n) :=
  fun x hx => hs x (List.mem_of_mem_drop hx)

theorem IsBytes.zipWith_xor : ∀ (s t : GoString), IsBytes s → IsBytes t →
    IsBytes (List.zipWith (· ^^^ ·) s t)
  | [], _, _, _ => by simpa using IsBytes.nil
  | _ :: _, [], _, _ => by simpa using IsBytes.nil
  | a :: s, b :: t, hs, ht => by
    simp only [List.zipWith_cons_cons]
    exact IsBytes.cons (aes.xor_lt hs.head ht.head) (IsBytes.zipWith_xor s t hs.tail ht.tail)

theorem aes.sbox0_lt (b : Nat) : aes.sbox0.getD b 0 < 256 := by
  by_cases h : b < 256
  · revert b; decide!
  · rw [List.getD_eq_default]
    · decide
    · have : aes.sbox0.length = 256 := by decide!
      omega

theorem aes.sbox1_lt (b : Nat) : aes.sbox1.getD b 0 < 256 := by
  by_cases h : b < 256
  · revert b; decide!
  · rw [List.getD_eq_default]
    · decide
    · have : aes.sbox1.length = 256 := by decide!
      omega

theorem aes.sbox1_sbox0 : ∀ b < 256, aes.sbox1.getD (aes.sbox0.getD b 0) 0 = b := by decide!

theorem aes.subBytes_bytes (s : GoString) : IsBytes (aes.subBytes s) := by
  intro x hx
  simp only [aes.subBytes, List.mem_map] at hx
  obtain ⟨b, _, rfl⟩ := hx
  exact aes.sbox0_lt b

theorem aes.invSubBytes_bytes (s : GoString) : IsBytes (aes.invSubBytes s) := by
  intro x hx
  simp only [aes.invSubBytes, List.mem_map] at hx
  obtain ⟨b, _, rfl⟩ := hx
  exact aes.sbox1_lt b

theorem aes.invSubBytes_subBytes (s : GoString) (hs : IsBytes s) :
    aes.invSubBytes (aes.subBytes s) = s := by
  induction s with
  | nil => rfl
  | cons a s ih =>
    simp only [aes.subBytes, aes.invSubBytes, List.map_cons, List.map_map] at ih ⊢
    rw [aes.sbox1_sbox0 a hs.head, ih hs.tail]

theorem aes.eq_of_length_16 (s : GoString) (h : s.length = 16) :
    ∃ s0 s1 s2 s3 s4 s5 s6 s7 s8 s9 s10 s11 s12 s13 s14 s15,
      s = [s0, s1, s2, s3, s4, s5, s6, s7, s8, s9, s10, s11, s12, s13, s14, s15] := by
  match s, h with
  | [s0, s1, s2, s3, s4, s5, s6, s7, s8, s9, s10, s11, s12, s13, s14, s15], _ =>
    exact ⟨s0, s1, s2, s3, s4, s5, s6, s7, s8, s9, s10, s11, s12, s13, s14, s15, rfl⟩

theorem aes.invShiftRows_shiftRows (s : GoString) (h : s.length = 16) :
    aes.invShiftRows (aes.shiftRows s) = s := by
  obtain ⟨s0, s1, s2, s3, s4, s5, s6, s7, s8, s9, s10, s11, s12, s13, s14, s15, rfl⟩ :=
    aes.eq_of_length_16 s h
  rfl

theorem aes.shiftRows_block (s : GoString) (h : aes.IsBlock s) : aes.IsBlock (aes.shiftRows s) := by
  obtain ⟨hl, hb⟩ := h
  obtain ⟨s0, s1, s2, s3, s4, s5, s6, s7, s8, s9, s10, s11, s12, s13, s14, s15, rfl⟩ :=
    aes.eq_of_length_16 s hl
  refine ⟨rfl, ?_⟩
  intro x hx
  apply hb x
  simp only [aes.shiftRows, List.mem_cons, List.mem_singleton] at hx ⊢
  tauto

theorem aes.mixColumns_length (s : GoString) : (aes.mixColumns s).length = s.length := by
  induction s using aes.mixColumns.induct with
  | case1 a b c d rest ih => simp [aes.mixColumns, ih]
  | case2 s h => rw [aes.mixColumns]; intro a b c d rest hs; exact h a b c d rest hs

theorem aes.mixColumns_bytes (s : GoString) (hs : IsBytes s) : IsBytes (aes.mixColumns s) := by
  induction s using aes.mixColumns.induct with
  | case1 a b c d rest ih =>
    have ha := hs.head
    have hb := hs.tail.head
    have hc := hs.tail.tail.head
    have hd := hs.tail.tail.tail.head
    have hr := hs.tail.tail.tail.tail
    simp only [aes.mixColumns]
    refine IsBytes.cons ?_ (IsBytes.cons ?_ (IsBytes.cons ?_ (IsBytes.cons ?_ (ih hr))))
    · exact aes.xor_lt (aes.xor_lt (aes.xor_lt (aes.xtime_lt a ha) (aes.mul_lt b hb).1) hc) hd
    · exact aes.xor_lt (aes.xor_lt (aes.xor_lt ha (aes.xtime_lt b hb)) (aes.mul_lt c hc).1) hd
    · exact aes.xor_lt (aes.xor_lt (aes.xor_lt ha hb) (aes.xtime_lt c hc)) (aes.mul_lt d hd).1
    · exact aes.xor_lt (aes.xor_lt (aes.xor_lt (aes.mul_lt a ha).1 hb) hc) (aes.xtime_lt d hd)
  | case2 s h =>
    rw [aes.mixColumns]
    · exact hs
    · intro a b c d rest hs; exact h a b c d rest hs

theorem aes.invMixColumns_mixColumns (s : GoString) (hs : IsBytes s) :
    aes.invMixColumns (aes.mixColumns s) = s := by
  induction s using aes.mixColumns.induct with
  | case1 a b c d rest ih =>
    have ha := hs.head
    have hb := hs.tail.head
    have hc := hs.tail.tail.head
    have hd := hs.tail.tail.tail.head
    have hr := hs.tail.tail.tail.tail
    have hcol := aes.invMix_mix_column a b c d ha hb hc hd
    simp only [aes.mixColumns, aes.invMixColumns, List.cons.injEq, and_true] at hcol ⊢
    exact ⟨hcol.1, hcol.2.1, hcol.2.2.1, hcol.2.2.2, ih hr⟩
  | case2 s h =>
    have h1 : aes.mixColumns s = s := by
      rw [aes.mixColumns]; intro a b c d rest hs; exact h a b c d rest hs
    have h2 : aes.invMixColumns s = s := by
      rw [aes.invMixColumns]; intro a b c d rest hs; exact h a b c d rest hs
    rw [h1, h2]

theorem aes.addRoundKey_cancel : ∀ (s rk : GoString), s.length ≤ rk.length →
    aes.addRoundKey (aes.addRoundKey s rk) rk = s
  | [], _, _ => by simp [aes.addRoundKey]
  | _ :: _, [], h => by simp at h
  | a :: s, b :: rk, h => by
    have ih := aes.addRoundKey_cancel s rk (by simpa using h)
    simp only [aes.addRoundKey, List.zipWith_cons_cons, List.cons.injEq] at ih ⊢
    exact ⟨Nat.xor_cancel_right b a, ih⟩

theorem aes.addRoundKey_block (s rk : GoString) (hs : aes.IsBlock s) (hrk : aes.IsBlock rk) :
    aes.IsBlock (aes.addRoundKey s rk) := by
  refine ⟨?_, IsBytes.zipWith_xor s rk hs.2 hrk.2⟩
  simp [aes.addRoundKey, hs.1, hrk.1]

theorem aes.subBytes_block (s : GoString) (hs : aes.IsBlock s) : aes.IsBlock (aes.subBytes s) :=
  ⟨by simp [aes.subBytes, hs.1], aes.subBytes_bytes s⟩

theorem aes.mixColumns_block (s : GoString) (hs : aes.IsBlock s) :
    aes.IsBlock (aes.mixColumns s) :=
  ⟨by rw [aes.mixColumns_length, hs.1], aes.mixColumns_bytes s hs.2⟩

theorem aes.encRound_block (s rk : GoString) (hs : aes.IsBlock s) (hrk : aes.IsBlock rk) :
    aes.IsBlock (aes.encRound s rk) :=
  aes.addRoundKey_block _ _
    (aes.mixColumns_block _ (aes.shiftRows_block _ (aes.subBytes_block s hs))) hrk

theorem aes.decRound_encRound (s rk : GoString) (hs : aes.IsBlock s) (hrk : aes.IsBlock rk) :
    aes.decRound (aes.encRound s rk) rk = s := by
  have h1 := aes.subBytes_block s hs
  have h2 := aes.shiftRows_block _ h1
  have h3 := aes.mixColumns_block _ h2
  unfold aes.decRound aes.encRound
  rw [aes.addRoundKey_cancel _ _ (by rw [h3.1, hrk.1]), aes.invMixColumns_mixColumns _ h2.2,
    aes.invShiftRows_shiftRows _ h1.1, aes.invSubBytes_subBytes _ hs.2]

theorem aes.encRounds_block : ∀ (rks : List GoString) (s : GoString), aes.IsBlock s →
    (∀ rk ∈ rks, aes.IsBlock rk) → aes.IsBlock (aes.encRounds s rks)
  | [], _, hs, _ => hs
  | rk :: rest, s, hs, h =>
    aes.encRounds_block rest _ (aes.encRound_block s rk hs (h rk (List.mem_cons_self rk rest)))
      (fun r hr => h r (List.mem_cons_of_mem rk hr))

theorem aes.decRounds_encRounds : ∀ (rks : List GoString) (s : GoString), aes.IsBlock s →
    (∀ rk ∈ rks, aes.IsBlock rk) → aes.decRounds (aes.encRounds s rks) rks = s
  | [], s, _, _ => rfl
  | rk :: rest, s, hs, h => by
    have hrk := h rk (List.mem_cons_self rk rest)
    have hrest : ∀ r ∈ rest, aes.IsBlock r := fun r hr => h r (List.mem_cons_of_mem rk hr)
    simp only [aes.encRounds, aes.decRounds]
    rw [aes.decRounds_encRounds rest _ (aes.encRound_block s rk hs hrk) hrest,
      aes.decRound_encRound s rk hs hrk]

/-- The inverse cipher undoes the cipher, for at least two round keys. -/
theorem aes.invCipher_cipher (rk0 rk1 : GoString) (rest : List GoString) (b : GoString)
    (hb : aes.IsBlock b) (hrks : ∀ rk ∈ rk0 :: rk1 :: rest, aes.IsBlock rk) :
    aes.IsBlock (aes.cipher (rk0 :: rk1 :: rest) b) ∧
      aes.invCipher (rk0 :: rk1 :: rest) (aes.cipher (rk0 :: rk1 :: rest) b) = b := by
  have h0 : aes.IsBlock rk0 := hrks rk0 (by simp)
  have hne : rk1 :: rest ≠ [] := by simp
  have hlast : aes.IsBlock ((rk1 :: rest).getLastD []) := by
    rw [List.getLastD_eq_getLast?, List.getLast?_eq_getLast _ hne]
    exact hrks _ (List.mem_cons_of_mem _ (List.getLast_mem hne))
  have hmid : ∀ rk ∈ (rk1 :: rest).dropLast, aes.IsBlock rk :=
    fun rk hrk => hrks rk (List.mem_cons_of_mem _ (List.dropLast_subset _ hrk))
  have h1 := aes.addRoundKey_block b rk0 hb h0
  have h2 := aes.encRounds_block _ _ h1 hmid
  have h3 := aes.subBytes_block _ h2
  have h4 := aes.shiftRows_block _ h3
  refine ⟨aes.addRoundKey_block _ _ h4 hlast, ?_⟩
  simp only [aes.cipher, aes.invCipher]
  rw [aes.addRoundKey_cancel _ _ (by rw [h4.1, hlast.1]), aes.invShiftRows_shiftRows _ h3.1,
    aes.invSubBytes_subBytes _ h2.2, aes.decRounds_encRounds _ _ h1 hmid,
    aes.addRoundKey_cancel _ _ (by rw [hb.1, h0.1])]

/-! ### The inverse cipher maps blocks to blocks -/

theorem aes.invShiftRows_block (s : GoString) (h : aes.IsBlock s) :
    aes.IsBlock (aes.invShiftRows s) := by
  obtain ⟨hl, hb⟩ := h
  obtain ⟨s0, s1, s2, s3, s4, s5, s6, s7, s8, s9, s10, s11, s12, s13, s14, s15, rfl⟩ :=
    aes.eq_of_length_16 s hl
  refine ⟨rfl, ?_⟩
  intro x hx
  apply hb x
  simp only [aes.invShiftRows, List.mem_cons, List.mem_singleton] at hx ⊢
  tauto

theorem aes.invSubBytes_block (s : GoString) (hs : aes.IsBlock s) :
    aes.IsBlock (aes.invSubBytes s) :=
  ⟨by simp [aes.invSubBytes, hs.1], aes.invSubBytes_bytes s⟩

theorem aes.invMixColumns_length (s : GoString) : (aes.invMixColumns s).length = s.length := by
  induction s using aes.invMixColumns.induct with
  | case1 a b c d rest ih => simp [aes.invMixColumns, ih]
  | case2 s h => rw [aes.invMixColumns]; intro a b c d rest hs; exact h a b c d rest hs

theorem aes.invMixColumns_bytes (s : GoString) (hs : IsBytes s) :
    IsBytes (aes.invMixColumns s) := by
  induction s using aes.invMixColumns.induct with
  | case1 a b c d rest ih =>
    obtain ⟨_, a9, a11, a13, a14⟩ := aes.mul_lt a hs.head
    obtain ⟨_, b9, b11, b13, b14⟩ := aes.mul_lt b hs.tail.head
    obtain ⟨_, c9, c11, c13, c14⟩ := aes.mul_lt c hs.tail.tail.head
    obtain ⟨_, d9, d11, d13, d14⟩ := aes.mul_lt d hs.tail.tail.tail.head
    have hr := hs.tail.tail.tail.tail
    simp only [aes.invMixColumns]
    refine IsBytes.cons ?_ (IsBytes.cons ?_ (IsBytes.cons ?_ (IsBytes.cons ?_ (ih hr))))
    · exact aes.xor_lt (aes.xor_lt (aes.xor_lt a14 b11) c13) d9
    · exact aes.xor_lt (aes.xor_lt (aes.xor_lt a9 b14) c11) d13
    · exact aes.xor_lt (aes.xor_lt (aes.xor_lt a13 b9) c14) d11
    · exact aes.xor_lt (aes.xor_lt (aes.xor_lt a11 b13) c9) d14
  | case2 s h =>
    rw [aes.invMixColumns]
    · exact hs
    · intro a b c d rest hs; exact h a b c d rest hs

theorem aes.decRound_block (s rk : GoString) (hs : aes.IsBlock s) (hrk : aes.IsBlock rk) :
    aes.IsBlock (aes.decRound s rk) := by
  have h1 := aes.addRoundKey_block s rk hs hrk
  have h2 : aes.IsBlock (aes.invMixColumns (aes.addRoundKey s rk)) :=
    ⟨by rw [aes.invMixColumns_length, h1.1], aes.invMixColumns_bytes _ h1.2⟩
  exact aes.invSubBytes_block _ (aes.invShiftRows_block _ h2)

theorem aes.decRounds_block : ∀ (rks : List GoString) (s : GoString), aes.IsBlock s →
    (∀ rk ∈ rks, aes.IsBlock rk) → aes.IsBlock (aes.decRounds s rks)
  | [], _, hs, _ => hs
  | rk :: rest, s, hs, h =>
    aes.decRound_block _ rk
      (aes.decRounds_block rest s hs (fun r hr => h r (List.mem_cons_of_mem rk hr)))
      (h rk (List.mem_cons_self rk rest))

theorem aes.invCipher_block (rk0 rk1 : GoString) (rest : List GoString) (b : GoString)
    (hb : aes.IsBlock b) (hrks : ∀ rk ∈ rk0 :: rk1 :: rest, aes.IsBlock rk) :
    aes.IsBlock (aes.invCipher (rk0 :: rk1 :: rest) b) := by
  have h0 : aes.IsBlock rk0 := hrks rk0 (by simp)
  have hne : rk1 :: rest ≠ [] := by simp
  have hlast : aes.IsBlock ((rk1 :: rest).getLastD []) := by
    rw [List.getLastD_eq_getLast?, List.getLast?_eq_getLast _ hne]
    exact hrks _ (List.mem_cons_of_mem _ (List.getLast_mem hne))
  have hmid : ∀ rk ∈ (rk1 :: rest).dropLast, aes.IsBlock rk :=
    fun rk hrk => hrks rk (List.mem_cons_of_mem _ (List.dropLast_subset _ hrk))
  have h1 := aes.invSubBytes_block _ (aes.invShiftRows_block _ (aes.addRoundKey_block b _ hb hlast))
  exact aes.addRoundKey_block _ _ (aes.decRounds_block _ _ h1 hmid) h0

/-! ### The key schedule -/

theorem aes.rcon_lt : ∀ i, aes.rcon i < 256
  | 0 => by decide
  | 1 => by decide
  | i + 2 => by
    rw [aes.rcon]
    exact aes.xtime_lt _ (aes.rcon_lt (i + 1))

theorem aes.expandLoop_spec (nk : Nat) (hnk : 0 < nk) : ∀ (n i : Nat) (w : GoString),
    w.length = 4 * i → nk ≤ i → IsBytes w →
    (aes.expandLoop nk n i w).length = 4 * (i + n) ∧ IsBytes (aes.expandLoop nk n i w)
  | 0, i, w, hl, _, hb => ⟨by simpa [aes.expandLoop] using hl, by simpa [aes.expandLoop] using hb⟩
  | n + 1, i, w, hl, hi, hb => by
    rw [aes.expandLoop]
    have ht0 : ((w.drop (4 * (i - 1))).take 4).length = 4 := by
      rw [List.length_take, List.length_drop]; omega
    have hb0 : IsBytes ((w.drop (4 * (i - 1))).take 4) := (hb.drop _).take _
    have hx : ((w.drop (4 * (i - nk))).take 4).length = 4 := by
      rw [List.length_take, List.length_drop]; omega
    have hbx : IsBytes ((w.drop (4 * (i - nk))).take 4) := (hb.drop _).take _
    have key : ∀ t : GoString, t.length = 4 → IsBytes t →
        (aes.expandLoop nk n (i + 1)
          (w ++ List.zipWith (· ^^^ ·) ((w.drop (4 * (i - nk))).take 4) t)).length
            = 4 * (i + (n + 1)) ∧
        IsBytes (aes.expandLoop nk n (i + 1)
          (w ++ List.zipWith (· ^^^ ·) ((w.drop (4 * (i - nk))).take 4) t)) := by
      intro t htl htb
      have := aes.expandLoop_spec nk hnk n (i + 1)
        (w ++ List.zipWith (· ^^^ ·) ((w.drop (4 * (i - nk))).take 4) t)
        (by rw [List.length_append, List.length_zipWith, hx, htl, hl]; omega) (by omega)
        (hb.append (IsBytes.zipWith_xor _ _ hbx htb))
      refine ⟨by rw [this.1]; omega, this.2⟩
    split
    · apply key
      · simp only [List.length_zipWith, aes.subBytes, List.length_map, List.length_append,
          List.length_drop, List.length_take, List.length_cons, List.length_nil] at ht0 ⊢
        omega
      · apply IsBytes.zipWith_xor _ _ (aes.subBytes_bytes _)
        exact IsBytes.cons (aes.rcon_lt _) (by decide)
    · split
      · apply key
        · rw [aes.subBytes, List.length_map, ht0]
        · exact aes.subBytes_bytes _
      · exact key _ ht0 hb0

theorem aes.expandKey_spec (key : GoString) (hk : key.length = 16 ∨ key.length = 24 ∨ key.length = 32)
    (hb : IsBytes key) :
    (aes.expandKey key).length = 16 * (key.length / 4 + 7) ∧ IsBytes (aes.expandKey key) := by
  have h := aes.expandLoop_spec (key.length / 4) (by omega)
    (4 * (key.length / 4 + 6 + 1) - key.length / 4) (key.length / 4) key (by omega)
    (Nat.le_refl _) hb
  unfold aes.expandKey
  refine ⟨?_, h.2⟩
  rw [h.1]; omega

theorem aes.roundKeys_spec : ∀ (n : Nat) (w : GoString), 16 * n ≤ w.length → IsBytes w →
    (aes.roundKeys n w).length = n ∧ ∀ rk ∈ aes.roundKeys n w, aes.IsBlock rk
  | 0, _, _, _ => ⟨rfl, by intro rk h; cases h⟩
  | n + 1, w, hl, hb => by
    have ih := aes.roundKeys_spec n (w.drop 16) (by rw [List.length_drop]; omega) (hb.drop 16)
    refine ⟨by simp [aes.roundKeys, ih.1], ?_⟩
    intro rk hrk
    simp only [aes.roundKeys, List.mem_cons] at hrk
    rcases hrk with h | h
    · subst h
      exact ⟨by rw [List.length_take]; omega, hb.take 16⟩
    · exact ih.2 rk h

/-- AES decryption undoes AES encryption of a block, for every key of 16, 24
or 32 bytes; the ciphertext is a block as well. -/
theorem aes.decryptBlock_encryptBlock (key b : GoString)
    (hk : key.length = 16 ∨ key.length = 24 ∨ key.length = 32) (hkb : IsBytes key)
    (hb : aes.IsBlock b) :
    aes.IsBlock (aes.encryptBlock key b) ∧ aes.decryptBlock key (aes.encryptBlock key b) = b := by
  have hw := aes.expandKey_spec key hk hkb
  have hr := aes.roundKeys_spec (key.length / 4 + 7) (aes.expandKey key) (by rw [hw.1]) hw.2
  unfold aes.encryptBlock aes.decryptBlock
  match hrk : aes.roundKeys (key.length / 4 + 7) (aes.expandKey key), hr with
  | [], hr => simp at hr
  | [_], hr => simp at hr
  | rk0 :: rk1 :: rest, hr => exact aes.invCipher_cipher rk0 rk1 rest b hb hr.2

/-- AES decryption maps a block to a block. -/
theorem aes.decryptBlock_block (key b : GoString)
    (hk : key.length = 16 ∨ key.length = 24 ∨ key.length = 32) (hkb : IsBytes key)
    (hb : aes.IsBlock b) : aes.IsBlock (aes.decryptBlock key b) := by
  have hw := aes.expandKey_spec key hk hkb
  have hr := aes.roundKeys_spec (key.length / 4 + 7) (aes.expandKey key) (by rw [hw.1]) hw.2
  unfold aes.decryptBlock
  match hrk : aes.roundKeys (key.length / 4 + 7) (aes.expandKey key), hr with
  | [], hr => simp at hr
  | [_], hr => simp at hr
  | rk0 :: rk1 :: rest, hr => exact aes.invCipher_block rk0 rk1 rest b hb hr.2

theorem referenceLib_aesEncryptBlock : referenceLib.aesEncryptBlock = aes.encryptBlock := by
  simp only [referenceLib]

theorem referenceLib_aesDecryptBlock : referenceLib.aesDecryptBlock = aes.decryptBlock := by
  simp only [referenceLib]

/-- The reference library meets the contract of the AES block functions. -/
theorem referenceLib_lawful : referenceLib.AESLawful := by
  constructor
  · intro key b hk hkb hb
    rw [referenceLib_aesEncryptBlock]
    exact (aes.decryptBlock_encryptBlock key b hk hkb hb).1
  · intro key b hk hkb hb
    rw [referenceLib_aesDecryptBlock]
    exact aes.decryptBlock_block key b hk hkb hb
  · intro key b hk hkb hb
    rw [referenceLib_aesEncryptBlock, referenceLib_aesDecryptBlock]
    exact (aes.decryptBlock_encryptBlock key b hk hkb hb).2

/-- The reference AES on the example vectors of FIPS-197, appendix C, for the
three key sizes. -/
theorem aes.fips197_vectors :
    aes.encryptBlock (List.range 16)
        [0x00, 0x11, 0x22, 0x33, 0x44, 0x55, 0x66, 0x77, 0x88, 0x99, 0xaa, 0xbb, 0xcc, 0xdd, 0xee, 0xff]
      = [0x69, 0xc4, 0xe0, 0xd8, 0x6a, 0x7b, 0x04, 0x30, 0xd8, 0xcd, 0xb7, 0x80, 0x70, 0xb4, 0xc5, 0x5a] ∧
    aes.encryptBlock (List.range 24)
        [0x00, 0x11, 0x22, 0x33, 0x44, 0x55, 0x66, 0x77, 0x88, 0x99, 0xaa, 0xbb, 0xcc, 0xdd, 0xee, 0xff]
      = [0xdd, 0xa9, 0x7c, 0xa4, 0x86, 0x4c, 0xdf, 0xe0, 0x6e, 0xaf, 0x70, 0xa0, 0xec, 0x0d, 0x71, 0x91] ∧
    aes.encryptBlock (List.range 32)
        [0x00, 0x11, 0x22, 0x33, 0x44, 0x55, 0x66, 0x77, 0x88, 0x99, 0xaa, 0xbb, 0xcc, 0xdd, 0xee, 0xff]
      = [0x8e, 0xa2, 0xb7, 0xca, 0x51, 0x67, 0x45, 0xbf, 0xea, 0xfc, 0x49, 0x90, 0x4b, 0x49, 0x60, 0x89] := by
  decide!

/-! # `encoding/hex` -/

theorem hex.nibbles_lt : ∀ a < 16, ∀ b < 16, (a <<< 4) ||| b < 256 := by decide

/-- One step of `hex.Decode` on two hex digits. -/
theorem hex.Decode_cons_cons (p q : Nat) (rest : GoString)
    (hp : ¬ hex.reverseHexTable p > 0x0f) (hq : ¬ hex.reverseHexTable q > 0x0f) :
    hex.Decode (p :: q :: rest) =
      (((hex.reverseHexTable p <<< 4) ||| hex.reverseHexTable q) :: (hex.Decode rest).1,
        (hex.Decode rest).2) := by
  rw [hex.Decode]
  simp only [if_neg hp, if_neg hq]

/-- A first digit that is not a hex digit stops `hex.Decode`. -/
theorem hex.Decode_bad_first (p q : Nat) (rest : GoString)
    (hp : hex.reverseHexTable p > 0x0f) :
    hex.Decode (p :: q :: rest) = ([], some (.InvalidByteError p)) := by
  rw [hex.Decode]
  simp only [if_pos hp]

/-- A second digit that is not a hex digit stops `hex.Decode`. -/
theorem hex.Decode_bad_second (p q : Nat) (rest : GoString)
    (hp : ¬ hex.reverseHexTable p > 0x0f) (hq : hex.reverseHexTable q > 0x0f) :
    hex.Decode (p :: q :: rest) = ([], some (.InvalidByteError q)) := by
  rw [hex.Decode]
  simp only [if_neg hp, if_pos hq]

theorem hex.Decode_single (p : Nat) : (hex.Decode [p]).1 = [] ∧ (hex.Decode [p]).2 ≠ none := by
  rw [hex.Decode]
  split <;> simp

/-- The bytes that `hex.Decode` yields are bytes. -/
theorem hex.Decode_bytes : ∀ (s : GoString), IsBytes (hex.Decode s).1
  | [] => by simpa [hex.Decode] using IsBytes.nil
  | [p] => by rw [(hex.Decode_single p).1]; exact IsBytes.nil
  | p :: q :: rest => by
    by_cases hp : hex.reverseHexTable p > 0x0f
    · rw [hex.Decode_bad_first p q rest hp]; exact IsBytes.nil
    · by_cases hq : hex.reverseHexTable q > 0x0f
      · rw [hex.Decode_bad_second p q rest hp hq]; exact IsBytes.nil
      · rw [hex.Decode_cons_cons p q rest hp hq]
        exact IsBytes.cons (hex.nibbles_lt _ (by omega) _ (by omega)) (hex.Decode_bytes rest)

/-- Decoding the two digits written for a byte gives the byte back. -/
theorem hex.decode_digits : ∀ v < 256,
    hex.reverseHexTable (hex.hextable (v >>> 4)) ≤ 0x0f ∧
    hex.reverseHexTable (hex.hextable (v &&& 0x0f)) ≤ 0x0f ∧
    (hex.reverseHexTable (hex.hextable (v >>> 4)) <<< 4) |||
      hex.reverseHexTable (hex.hextable (v &&& 0x0f)) = v := by
  decide!

/-- The function `hex.DecodeString` undoes `hex.EncodeToString`, without error. -/
theorem hex.DecodeString_EncodeToString : ∀ (bs : GoString), IsBytes bs →
    hex.DecodeString (hex.EncodeToString bs) = (bs, none)
  | [], _ => rfl
  | v :: bs, h => by
    have ih := hex.DecodeString_EncodeToString bs h.tail
    obtain ⟨h1, h2, h3⟩ := hex.decode_digits v h.head
    simp only [hex.DecodeString, hex.EncodeToString, List.flatMap_cons, List.cons_append,
      List.nil_append] at ih ⊢
    rw [hex.Decode_cons_cons _ _ _ (Nat.not_lt.2 h1) (Nat.not_lt.2 h2), h3, ih]

/-- The function `hex.Decode` reports no error exactly for an even number of
hex digits. -/
theorem hex.Decode_no_error : ∀ (s : GoString),
    (hex.Decode s).2 = none ↔ s.length % 2 = 0 ∧ ∀ c ∈ s, hex.reverseHexTable c ≤ 0x0f
  | [] => by simp [hex.Decode]
  | [p] => by
    constructor
    · intro h; exact absurd h (hex.Decode_single p).2
    · intro h; simp at h
  | p :: q :: rest => by
    have ih := hex.Decode_no_error rest
    by_cases hp : hex.reverseHexTable p > 0x0f
    · rw [hex.Decode_bad_first p q rest hp]
      constructor
      · intro h; cases h
      · intro h
        have := h.2 p (List.mem_cons_self _ _)
        omega
    · by_cases hq : hex.reverseHexTable q > 0x0f
      · rw [hex.Decode_bad_second p q rest hp hq]
        constructor
        · intro h; cases h
        · intro h
          have := h.2 q (List.mem_cons_of_mem _ (List.mem_cons_self _ _))
          omega
      · rw [hex.Decode_cons_cons p q rest hp hq]
        simp only [ih, List.length_cons, List.mem_cons, forall_eq_or_imp]
        constructor
        · rintro ⟨h1, h2⟩
          exact ⟨by omega, by omega, by omega, h2⟩
        · rintro ⟨h1, _, _, h2⟩
          exact ⟨by omega, h2⟩

/-! # Properties -/

/-! ## `GetDatabaseConfig` -/

/-- When no entry matches, the loop leaves `otrcfg` as it was. -/
theorem GetDatabaseConfig.scan_no_match (L : Stdlib) (l : GoString)
    (d : DatabaseConnectionConfiguration) :
    ∀ (cfgs : List DatabaseConnectionConfiguration),
      (∀ e ∈ cfgs, ¬ GetDatabaseConfig.matches L l e) → GetDatabaseConfig.scan L l d cfgs = d
  | [], _ => rfl
  | e :: rest, h => by
    rw [GetDatabaseConfig.scan, if_neg (h e (List.mem_cons_self e rest))]
    exact GetDatabaseConfig.scan_no_match L l d rest
      (fun x hx => h x (List.mem_cons_of_mem e hx))

/-- The loop stops at the matching entry of smallest index. -/
theorem GetDatabaseConfig.scan_first (L : Stdlib) (l : GoString)
    (d : DatabaseConnectionConfiguration) :
    ∀ (cfgs : List DatabaseConnectionConfiguration) (i : Nat) (hi : i < cfgs.length),
      GetDatabaseConfig.matches L l cfgs[i] →
      (∀ j (hj : j < i), ¬ GetDatabaseConfig.matches L l (cfgs[j])) →
      GetDatabaseConfig.scan L l d cfgs = cfgs[i]
  | [], i, hi, _, _ => by simp at hi
  | e :: rest, 0, _, hm, _ => by
    rw [GetDatabaseConfig.scan, if_pos (by simpa using hm)]
    rfl
  | e :: rest, i + 1, hi, hm, hfirst => by
    have h0 : ¬ GetDatabaseConfig.matches L l e := by
      simpa using hfirst 0 (Nat.succ_pos i)
    rw [GetDatabaseConfig.scan, if_neg h0]
    have hi2 : i < rest.length := by simpa using hi
    have := GetDatabaseConfig.scan_first L l d rest i hi2 (by simpa using hm)
      (fun j hj => by simpa using hfirst (j + 1) (Nat.succ_lt_succ hj))
    simpa using this

theorem str_empty : str "" = [] := rfl

/-- C1 (as amended). If the entry at index `i` matches the lookup string
case-insensitively and no entry of smaller index does, then
`GetDatabaseConfig` returns that entry provided its `ConnectionName` is not
empty; when its `ConnectionName` is empty the call ends in `log.Fatal`. -/
theorem GetDatabaseConfig_first_match (L : Stdlib) (appcfg : ApplicationConfiguration)
    (s : GoString) (i : Nat) (hi : i < appcfg.DatabaseConfigurations.length)
    (hm : GetDatabaseConfig.matches L (L.ToLower s) appcfg.DatabaseConfigurations[i])
    (hfirst : ∀ j (hj : j < i),
      ¬ GetDatabaseConfig.matches L (L.ToLower s) (appcfg.DatabaseConfigurations[j])) :
    (appcfg.DatabaseConfigurations[i].ConnectionName ≠ str "" →
      GetDatabaseConfig L appcfg s = .returned appcfg.DatabaseConfigurations[i]) ∧
    (appcfg.DatabaseConfigurations[i].ConnectionName = str "" →
      GetDatabaseConfig L appcfg s =
        .fatal (str "Unknown brandnameorshortname in GetDatabaseConfig(): " ++ s)) := by
  have hlen : ¬ appcfg.DatabaseConfigurations.length = 0 := by omega
  have hscan := GetDatabaseConfig.scan_first L (L.ToLower s) { ConnectionName := str "" }
    appcfg.DatabaseConfigurations i hi hm hfirst
  constructor
  · intro hne
    simp only [GetDatabaseConfig, if_neg hlen, hscan, if_neg hne]
  · intro he
    simp only [GetDatabaseConfig, if_neg hlen, hscan, if_pos he]

/-- C1, witness: the lookup of "gls" in the sample configuration returns the
first entry. -/
theorem GetDatabaseConfig_first_match_witness :
    GetDatabaseConfig referenceLib sampleParsed (str "gls")
      = .returned (sampleParsed.DatabaseConfigurations[0]) :=
  (GetDatabaseConfig_first_match referenceLib sampleParsed (str "gls") 0 (by decide) (by decide)
    (fun j hj => absurd hj (Nat.not_lt_zero j))).1 (by decide)

/-- C1, counterexample: the only entry of the configuration matches "gls",
yet `GetDatabaseConfig` does not return it: its `ConnectionName` is empty and
the call ends in `log.Fatal`. -/
theorem GetDatabaseConfig_first_match_counterexample :
    (∃ e ∈ unnamedConfig.DatabaseConfigurations,
      GetDatabaseConfig.matches referenceLib (referenceLib.ToLower (str "gls")) e) ∧
    GetDatabaseConfig referenceLib unnamedConfig (str "gls")
      = .fatal (str "Unknown brandnameorshortname in GetDatabaseConfig(): gls") := by
  decide

/-- C2. `GetDatabaseConfig` ends in `log.Fatal` when the list of connections
is empty and when no entry matches the lookup string case-insensitively; the
message, hence the whole outcome, is fixed by the configuration and the lookup
string. -/
theorem GetDatabaseConfig_fatal (L : Stdlib) (appcfg : ApplicationConfiguration)
    (s : GoString) :
    (appcfg.DatabaseConfigurations = [] →
      GetDatabaseConfig L appcfg s = .fatal (str "No OTR configurations found")) ∧
    ((∀ e ∈ appcfg.DatabaseConfigurations, ¬ GetDatabaseConfig.matches L (L.ToLower s) e) →
      (GetDatabaseConfig L appcfg s).isFatal = true ∧
      (appcfg.DatabaseConfigurations ≠ [] → GetDatabaseConfig L appcfg s =
        .fatal (str "Unknown brandnameorshortname in GetDatabaseConfig(): " ++ s))) := by
  constructor
  · intro h
    simp [GetDatabaseConfig, h]
  · intro h
    have hscan := GetDatabaseConfig.scan_no_match L (L.ToLower s) { ConnectionName := str "" }
      appcfg.DatabaseConfigurations h
    by_cases hlen : appcfg.DatabaseConfigurations.length = 0
    · have hnil : appcfg.DatabaseConfigurations = [] := List.length_eq_zero.1 hlen
      simp [GetDatabaseConfig, hlen, Outcome.isFatal, hnil]
    · have hne : appcfg.DatabaseConfigurations ≠ [] := fun h0 => hlen (by simp [h0])
      simp only [GetDatabaseConfig, if_neg hlen, hscan, if_true, Outcome.isFatal]
      simp

/-- C2, witness: looking up a brand that the sample configuration does not
have ends in `log.Fatal`, and so does any lookup in the empty configuration. -/
theorem GetDatabaseConfig_fatal_witness :
    (GetDatabaseConfig referenceLib sampleParsed (str "ACME")).isFatal = true ∧
    GetDatabaseConfig referenceLib {} (str "GLS") = .fatal (str "No OTR configurations found") :=
  ⟨((GetDatabaseConfig_fatal referenceLib sampleParsed (str "ACME")).2 (by decide)).1,
    (GetDatabaseConfig_fatal referenceLib {} (str "GLS")).1 rfl⟩

/-- C7. Two lookup strings that are equal after lower-casing have the same
outcome: both calls return the same entry, or both end in `log.Fatal`. -/
theorem GetDatabaseConfig_case_insensitive (L : Stdlib) (appcfg : ApplicationConfiguration)
    (a b : GoString) (hab : L.ToLower a = L.ToLower b) :
    (∃ e, GetDatabaseConfig L appcfg a = .returned e ∧
      GetDatabaseConfig L appcfg b = .returned e) ∨
    ((GetDatabaseConfig L appcfg a).isFatal = true ∧
      (GetDatabaseConfig L appcfg b).isFatal = true) := by
  unfold GetDatabaseConfig
  rw [hab]
  by_cases hlen : appcfg.DatabaseConfigurations.length = 0
  · right
    simp [hlen, Outcome.isFatal]
  · simp only [if_neg hlen]
    split
    · right
      simp [Outcome.isFatal]
    · left
      exact ⟨_, rfl, rfl⟩

/-- C7, witness: "gls", "GLS" and "Gls" resolve to the same entry of the
sample configuration. -/
theorem GetDatabaseConfig_case_insensitive_witness :
    ((∃ e, GetDatabaseConfig referenceLib sampleParsed (str "gls") = .returned e ∧
      GetDatabaseConfig referenceLib sampleParsed (str "GLS") = .returned e) ∨
    ((GetDatabaseConfig referenceLib sampleParsed (str "gls")).isFatal = true ∧
      (GetDatabaseConfig referenceLib sampleParsed (str "GLS")).isFatal = true)) ∧
    GetDatabaseConfig referenceLib sampleParsed (str "Gls")
      = GetDatabaseConfig referenceLib sampleParsed (str "GLS") :=
  ⟨GetDatabaseConfig_case_insensitive referenceLib sampleParsed (str "gls") (str "GLS")
    (by decide), by decide⟩

/-! ## `GetHTTPport` -/

/-- C8. `GetHTTPport` returns the value of `ASPNETCORE_PORT` when that is
set and not empty, otherwise the value of `HTTP_PLATFORM_PORT` when that is set
and not empty, otherwise the default; with neither set the default "8080" comes
back, and with only `HTTP_PLATFORM_PORT` set to "9090" the result is "9090". -/
theorem GetHTTPport_spec {σ : Type} (W : World σ) (d : GoString) :
    (∀ v, W.LookupEnv (str "ASPNETCORE_PORT") = some v → v ≠ str "" → GetHTTPport W d = v) ∧
    ((W.LookupEnv (str "ASPNETCORE_PORT") = none ∨
        W.LookupEnv (str "ASPNETCORE_PORT") = some (str "")) →
      (∀ v, W.LookupEnv (str "HTTP_PLATFORM_PORT") = some v → v ≠ str "" →
        GetHTTPport W d = v) ∧
      ((W.LookupEnv (str "HTTP_PLATFORM_PORT") = none ∨
          W.LookupEnv (str "HTTP_PLATFORM_PORT") = some (str "")) →
        GetHTTPport W d = d)) ∧
    (W.LookupEnv (str "ASPNETCORE_PORT") = none →
      W.LookupEnv (str "HTTP_PLATFORM_PORT") = none →
      GetHTTPport W (str "8080") = str "8080") ∧
    (W.LookupEnv (str "ASPNETCORE_PORT") = none →
      W.LookupEnv (str "HTTP_PLATFORM_PORT") = some (str "9090") →
      GetHTTPport W d = str "9090") := by
  refine ⟨?_, ?_, ?_, ?_⟩
  · intro v hv hne
    simp [GetHTTPport, os.Getenv, hv, hne]
  · intro h1
    have hasp : os.Getenv W (str "ASPNETCORE_PORT") = str "" := by
      rcases h1 with h | h <;> simp [os.Getenv, h, str_empty]
    constructor
    · intro v hv hne
      have hhpp : os.Getenv W (str "HTTP_PLATFORM_PORT") = v := by simp [os.Getenv, hv]
      simp only [GetHTTPport, hasp, hhpp, if_true, if_neg hne]
    · intro h2
      have hhpp : os.Getenv W (str "HTTP_PLATFORM_PORT") = str "" := by
        rcases h2 with h | h <;> simp [os.Getenv, h, str_empty]
      simp [GetHTTPport, hasp, hhpp]
  · intro h1 h2
    simp [GetHTTPport, os.Getenv, h1, h2, str_empty]
  · intro h1 h2
    have hne : str "9090" ≠ str "" := by decide
    have hasp : os.Getenv W (str "ASPNETCORE_PORT") = str "" := by simp [os.Getenv, h1, str_empty]
    have hhpp : os.Getenv W (str "HTTP_PLATFORM_PORT") = str "9090" := by simp [os.Getenv, h2]
    simp only [GetHTTPport, hasp, hhpp, if_true, if_neg hne]

/-- C8, witness: in the sample world only `HTTP_PLATFORM_PORT` is set, to
"9090", and in the empty world the default comes back. -/
theorem GetHTTPport_spec_witness :
    GetHTTPport sampleWorld (str "8080") = str "9090" ∧
    GetHTTPport emptyWorld (str "8080") = str "8080" :=
  ⟨(GetHTTPport_spec sampleWorld (str "8080")).2.2.2 (by decide) (by decide),
    (GetHTTPport_spec emptyWorld (str "8080")).2.2.1 rfl rfl⟩

/-! # `DecryptAES` -/

theorem hex.DecodeString_bytes (s : GoString) : IsBytes (hex.DecodeString s).1 :=
  hex.Decode_bytes s

/-- What `DecryptAES` does under a key of valid size: it panics when fewer
than 16 bytes were decoded, and otherwise returns the decryption of the first
block followed by zero bytes. -/
theorem DecryptAES_valid (L : Stdlib) (key ct : GoString) (hk : aes.validKeySize key.length) :
    DecryptAES L key ct =
      if 16 ≤ (hex.DecodeString ct).1.length then
        .returned (L.aesDecryptBlock key ((hex.DecodeString ct).1.take 16) ++
          List.replicate ((hex.DecodeString ct).1.length - 16) 0, none)
      else .panicked (str "crypto/aes: input not full block") := by
  simp only [DecryptAES, aes.NewCipher, if_pos hk, aes.Decrypt, List.length_replicate]
  by_cases h : 16 ≤ (hex.DecodeString ct).1.length
  · have h1 : ¬ (hex.DecodeString ct).1.length < 16 := by omega
    simp only [if_pos h, if_neg h1, List.drop_replicate]
  · have h1 : (hex.DecodeString ct).1.length < 16 := by omega
    simp only [if_neg h, if_pos h1]

/-- What `DecryptAES` does under a key of any other size. -/
theorem DecryptAES_invalid (L : Stdlib) (key ct : GoString)
    (hk : ¬ aes.validKeySize key.length) :
    DecryptAES L key ct = .returned (str "", some (aes.KeySizeError key.length)) := by
  simp only [DecryptAES, aes.NewCipher, if_neg hk]

/-- The outcome of `DecryptAES` depends on the ciphertext only through the
bytes that `hex.DecodeString` hands back. -/
theorem DecryptAES_congr (L : Stdlib) (key ct ct2 : GoString)
    (h : (hex.DecodeString ct).1 = (hex.DecodeString ct2).1) :
    DecryptAES L key ct = DecryptAES L key ct2 := by
  simp only [DecryptAES, h]

/-- C4 (as amended). Round trip for a plaintext of exactly one block: under a
valid key, `Encrypt` returns a ciphertext block for a 16-byte plaintext `p`,
and `DecryptAES` applied to the hex encoding of that block returns `p` and no
error. For a plaintext shorter than a block the block encryption has no
result: `Encrypt` panics on every input of fewer than 16 bytes, whatever the
destination. And a shorter plaintext cannot come back: what `DecryptAES`
returns without error has at least 16 bytes, so it never returns a string of
fewer than 16 bytes. -/
theorem DecryptAES_round_trip (L : Stdlib) (hL : L.AESLawful) (key p : GoString)
    (hk : aes.validKeySize key.length) (hkb : IsBytes key) (hp : aes.IsBlock p) :
    (∃ c, aes.Encrypt L key (List.replicate 16 0) p = .returned c ∧
      DecryptAES L key (hex.EncodeToString c) = .returned (p, none)) ∧
    (∀ ct s, DecryptAES L key ct = .returned (s, none) → 16 ≤ s.length) ∧
    (∀ q dst, q.length < 16 →
      aes.Encrypt L key dst q = .panicked (str "crypto/aes: input not full block")) ∧
    (∀ q ct, q.length < 16 → DecryptAES L key ct ≠ .returned (q, none)) := by
  have hlen : ∀ ct s, DecryptAES L key ct = .returned (s, none) → 16 ≤ s.length := by
    intro ct s h
    have hb := hex.DecodeString_bytes ct
    rw [DecryptAES_valid L key ct hk] at h
    by_cases hn : 16 ≤ (hex.DecodeString ct).1.length
    · rw [if_pos hn] at h
      have hblock : aes.IsBlock ((hex.DecodeString ct).1.take 16) :=
        ⟨by rw [List.length_take]; omega, hb.take 16⟩
      have hd := hL.decrypt_block key _ hk hkb hblock
      simp only [Outcome.returned.injEq, Prod.mk.injEq, and_true] at h
      rw [← h, List.length_append, hd.1]
      omega
    · rw [if_neg hn] at h
      cases h
  refine ⟨?_, hlen, ?_, ?_⟩
  · refine ⟨L.aesEncryptBlock key p, ?_, ?_⟩
    · have h1 : ¬ p.length < 16 := by rw [hp.1]; omega
      have h2 : List.take 16 p = p := List.take_of_length_le (by rw [hp.1])
      simp [aes.Encrypt, h1, h2]
    · have hc := hL.encrypt_block key p hk hkb hp
      rw [DecryptAES_valid L key _ hk, hex.DecodeString_EncodeToString _ hc.2]
      have h2 : List.take 16 (L.aesEncryptBlock key p) = L.aesEncryptBlock key p :=
        List.take_of_length_le (by rw [hc.1])
      simp only [hc.1, Nat.le_refl, if_true, h2, hL.decrypt_encrypt key p hk hkb hp,
        Nat.sub_self, List.replicate_zero, List.append_nil]
  · intro q dst hq
    simp only [aes.Encrypt, if_pos hq]
  · intro q ct hq h
    have := hlen ct q h
    omega

/-- C4, witness: the block "0123456789abcdef" under the key of the test file. -/
theorem DecryptAES_round_trip_witness :
    ∃ c, aes.Encrypt referenceLib sampleKey (List.replicate 16 0) (str "0123456789abcdef")
        = .returned c ∧
      DecryptAES referenceLib sampleKey (hex.EncodeToString c)
        = .returned (str "0123456789abcdef", none) :=
  (DecryptAES_round_trip referenceLib referenceLib_lawful sampleKey (str "0123456789abcdef")
    (by decide) (by decide) (by decide)).1

/-- C4, counterexample: the plaintext "secret123" has 9 bytes, no more than
one block. `Encrypt` panics on it, so there is no ciphertext block to decrypt;
and when it is first filled with zero bytes to a full block, `DecryptAES`
returns the 16 bytes of the filled block, not the 9 bytes of the plaintext. -/
theorem DecryptAES_round_trip_counterexample :
    (str "secret123").length ≤ 16 ∧
    aes.Encrypt referenceLib sampleKey (List.replicate 16 0) (str "secret123")
      = .panicked (str "crypto/aes: input not full block") ∧
    DecryptAES referenceLib sampleKey (hex.EncodeToString
        (referenceLib.aesEncryptBlock sampleKey (str "secret123" ++ List.replicate 7 0)))
      = .returned (str "secret123" ++ List.replicate 7 0, none) ∧
    DecryptAES referenceLib sampleKey (hex.EncodeToString
        (referenceLib.aesEncryptBlock sampleKey (str "secret123" ++ List.replicate 7 0)))
      ≠ .returned (str "secret123", none) := by
  have h : DecryptAES referenceLib sampleKey (hex.EncodeToString
        (referenceLib.aesEncryptBlock sampleKey (str "secret123" ++ List.replicate 7 0)))
      = .returned (str "secret123" ++ List.replicate 7 0, none) := by decide!
  refine ⟨by decide, by decide, h, ?_⟩
  rw [h]
  decide

/-- C5 (as amended). For a ciphertext string that is not valid hex (odd
length, or a character that is not a hex digit) `hex.DecodeString` reports an
error, which `DecryptAES` never returns: the only error it can return is the
key-size error. It goes on with the bytes decoded before the error: it
behaves as on the hex encoding of those bytes, hence as on the empty string
when no byte was decoded before the error. It behaves as on the empty string
exactly when the key has no valid size or fewer than 16 bytes were decoded
before the error. -/
theorem DecryptAES_ignores_hex_error (L : Stdlib) (key ct : GoString)
    (hbad : ct.length % 2 = 1 ∨ ∃ c ∈ ct, hex.reverseHexTable c > 0x0f) :
    (hex.DecodeString ct).2 ≠ none ∧
    DecryptAES L key ct = DecryptAES L key (hex.EncodeToString (hex.DecodeString ct).1) ∧
    (∀ s e, DecryptAES L key ct = .returned (s, some e) → e = aes.KeySizeError key.length) ∧
    ((hex.DecodeString ct).1 = [] → DecryptAES L key ct = DecryptAES L key (str "")) ∧
    (DecryptAES L key ct = DecryptAES L key (str "") ↔
      (¬ aes.validKeySize key.length ∨ (hex.DecodeString ct).1.length < 16)) := by
  refine ⟨?_, ?_, ?_, ?_, ?_⟩
  · intro h
    have := (hex.Decode_no_error ct).1 h
    rcases hbad with h1 | ⟨c, hc, h2⟩
    · omega
    · have := this.2 c hc
      omega
  · apply DecryptAES_congr
    rw [hex.DecodeString_EncodeToString _ (hex.DecodeString_bytes ct)]
  · intro s e h
    by_cases hk : aes.validKeySize key.length
    · rw [DecryptAES_valid L key ct hk] at h
      split at h <;> simp at h
    · rw [DecryptAES_invalid L key ct hk] at h
      simp only [Outcome.returned.injEq, Prod.mk.injEq, Option.some.injEq] at h
      exact h.2.symm
  · intro h
    apply DecryptAES_congr
    rw [h]
    rfl
  · by_cases hk : aes.validKeySize key.length
    · have h0 : ¬ 16 ≤ (hex.DecodeString (str "")).1.length := by decide
      rw [DecryptAES_valid L key ct hk, DecryptAES_valid L key (str "") hk, if_neg h0]
      by_cases hn : 16 ≤ (hex.DecodeString ct).1.length
      · rw [if_pos hn]
        constructor
        · intro h
          cases h
        · intro h
          rcases h with h | h
          · exact absurd hk h
          · omega
      · rw [if_neg hn]
        exact ⟨fun _ => Or.inr (by omega), fun _ => rfl⟩
    · rw [DecryptAES_invalid L key ct hk, DecryptAES_invalid L key (str "") hk]
      exact ⟨fun _ => Or.inl hk, fun _ => rfl⟩

/-- C5, witness: "zz" is not valid hex and nothing is decoded before the
error, so the call behaves as on the empty string; "abz" is not valid hex
either, one byte is decoded before the error, and the call still behaves as on
the empty string, fewer than 16 bytes having been decoded. -/
theorem DecryptAES_ignores_hex_error_witness :
    DecryptAES referenceLib sampleKey (str "zz") = DecryptAES referenceLib sampleKey (str "") ∧
    (hex.DecodeString (str "abz")).1 = [171] ∧
    DecryptAES referenceLib sampleKey (str "abz") = DecryptAES referenceLib sampleKey (str "") :=
  ⟨(DecryptAES_ignores_hex_error referenceLib sampleKey (str "zz")
      (Or.inr ⟨122, by decide, by decide⟩)).2.2.2.1 (by decide),
    by decide,
    (DecryptAES_ignores_hex_error referenceLib sampleKey (str "abz")
      (Or.inl (by decide))).2.2.2.2.2 (Or.inr (by decide))⟩

/-- C5, counterexample: 32 hex digits followed by "z" are not valid hex. The
16 bytes decoded before the error are decrypted and returned, whereas on the
empty string `DecryptAES` panics. -/
theorem DecryptAES_ignores_hex_error_counterexample :
    (str "6098269E74F9C5E83C1C263A058BB704z").length % 2 = 1 ∧
    (hex.DecodeString (str "6098269E74F9C5E83C1C263A058BB704z")).2
      = some (.InvalidByteError 122) ∧
    DecryptAES referenceLib sampleKey (str "6098269E74F9C5E83C1C263A058BB704z")
      = .returned (str "0123456789abcdef", none) ∧
    DecryptAES referenceLib sampleKey (str "")
      = .panicked (str "crypto/aes: input not full block") ∧
    DecryptAES referenceLib sampleKey (str "6098269E74F9C5E83C1C263A058BB704z")
      ≠ DecryptAES referenceLib sampleKey (str "") := by
  have h1 : DecryptAES referenceLib sampleKey (str "6098269E74F9C5E83C1C263A058BB704z")
      = .returned (str "0123456789abcdef", none) := by decide!
  have h2 : DecryptAES referenceLib sampleKey (str "")
      = .panicked (str "crypto/aes: input not full block") := by decide
  refine ⟨by decide, by decide, h1, h2, ?_⟩
  rw [h1, h2]
  decide

/-- C6. Under a valid key, when the ciphertext decodes to `n ≥ 16` bytes `c`,
`DecryptAES` returns a string of exactly `n` bytes and no error; its first 16
bytes are the block decryption of the first 16 bytes of `c`, its other `n - 16`
bytes are zero, and it is the same for every ciphertext of the same decoded
length with the same first block. -/
theorem DecryptAES_first_block_only (L : Stdlib) (hL : L.AESLawful) (key ct : GoString)
    (hk : aes.validKeySize key.length) (hkb : IsBytes key)
    (hn : 16 ≤ (hex.DecodeString ct).1.length) :
    (∃ s, DecryptAES L key ct = .returned (s, none) ∧
      s.length = (hex.DecodeString ct).1.length ∧
      s.take 16 = L.aesDecryptBlock key ((hex.DecodeString ct).1.take 16) ∧
      s.drop 16 = List.replicate ((hex.DecodeString ct).1.length - 16) 0) ∧
    (∀ ct2, (hex.DecodeString ct2).1.length = (hex.DecodeString ct).1.length →
      (hex.DecodeString ct2).1.take 16 = (hex.DecodeString ct).1.take 16 →
      DecryptAES L key ct2 = DecryptAES L key ct) := by
  have hblock : aes.IsBlock ((hex.DecodeString ct).1.take 16) :=
    ⟨by rw [List.length_take]; omega, (hex.DecodeString_bytes ct).take 16⟩
  have hd := hL.decrypt_block key _ hk hkb hblock
  constructor
  · refine ⟨_, by rw [DecryptAES_valid L key ct hk, if_pos hn], ?_, ?_, ?_⟩
    · rw [List.length_append, hd.1, List.length_replicate]
      omega
    · rw [List.take_left' hd.1]
    · rw [List.drop_left' hd.1]
  · intro ct2 hlen htake
    rw [DecryptAES_valid L key ct hk, DecryptAES_valid L key ct2 hk, hlen, htake]

/-- C6, witness: 17 bytes of ciphertext under the key of the test file. -/
theorem DecryptAES_first_block_only_witness :
    ∃ s, DecryptAES referenceLib sampleKey (str "6098269E74F9C5E83C1C263A058BB704ff")
        = .returned (s, none) ∧
      s.length = (hex.DecodeString (str "6098269E74F9C5E83C1C263A058BB704ff")).1.length ∧
      s.take 16 = referenceLib.aesDecryptBlock sampleKey
        ((hex.DecodeString (str "6098269E74F9C5E83C1C263A058BB704ff")).1.take 16) ∧
      s.drop 16 = List.replicate
        ((hex.DecodeString (str "6098269E74F9C5E83C1C263A058BB704ff")).1.length - 16) 0 :=
  (DecryptAES_first_block_only referenceLib referenceLib_lawful sampleKey
    (str "6098269E74F9C5E83C1C263A058BB704ff") (by decide) (by decide) (by decide)).1

/-! # `GetConfiguration` -/

/-- What a run of the loop of `GetConfiguration` that ends without error
leaves behind: the scalar fields and the entries below `i` are untouched, the
list keeps its length, and every entry from `i` on has its password replaced
by what `DecryptAES` returned for it. -/
theorem GetConfiguration.loop_returned (L : Stdlib) (key : GoString) :
    ∀ (todo i : Nat) (cfg out : ApplicationConfiguration),
      i + todo = cfg.DatabaseConfigurations.length →
      GetConfiguration.loop L key todo i cfg = .returned (out, none) →
      out.PapertrailEndPoint = cfg.PapertrailEndPoint ∧
      out.HttpRootPath = cfg.HttpRootPath ∧
      out.HttpServerPort = cfg.HttpServerPort ∧
      out.DatabaseConfigurations.length = cfg.DatabaseConfigurations.length ∧
      (∀ j, j < i → out.DatabaseConfigurations[j]? = cfg.DatabaseConfigurations[j]?) ∧
      (∀ j, i ≤ j → j < cfg.DatabaseConfigurations.length →
        ∃ e pw, cfg.DatabaseConfigurations[j]? = some e ∧
          DecryptAES L key (L.TrimSpace e.DBPassword) = .returned (pw, none) ∧
          out.DatabaseConfigurations[j]? = some { e with DBPassword := pw })
  | 0, i, cfg, out, hlen, h => by
    simp only [GetConfiguration.loop, Outcome.returned.injEq, Prod.mk.injEq, and_true] at h
    subst h
    refine ⟨rfl, rfl, rfl, rfl, fun _ _ => rfl, ?_⟩
    intro j h1 h2
    omega
  | todo + 1, i, cfg, out, hlen, h => by
    have hi : i < cfg.DatabaseConfigurations.length := by omega
    rw [GetConfiguration.loop, List.getElem?_eq_getElem hi] at h
    simp only [] at h
    split at h
    · cases h
    · cases h
    · simp at h
    · rename_i dbPassword hdec
      have ih := GetConfiguration.loop_returned L key todo (i + 1) _ out
        (by simp only [List.length_set]; omega) h
      simp only [List.length_set] at ih
      obtain ⟨h1, h2, h3, h4, h5, h6⟩ := ih
      refine ⟨h1, h2, h3, h4, ?_, ?_⟩
      · intro j hj
        rw [h5 j (by omega), List.getElem?_set_ne (by omega)]
      · intro j hij hjl
        by_cases hji : j = i
        · subst hji
          refine ⟨cfg.DatabaseConfigurations[j], dbPassword, List.getElem?_eq_getElem hi, hdec, ?_⟩
          rw [h5 j (by omega), List.getElem?_set_self hi]
        · obtain ⟨e, pw, he, hpw, hout⟩ := h6 j (by omega) hjl
          rw [List.getElem?_set_ne (by omega)] at he
          exact ⟨e, pw, he, hpw, hout⟩

/-- Under a key of valid size the loop of `GetConfiguration` panics as soon as
one of the entries still to be processed has a password that decodes to fewer
than 16 bytes. -/
theorem GetConfiguration.loop_panics (L : Stdlib) (key : GoString)
    (hk : aes.validKeySize key.length) :
    ∀ (todo i : Nat) (cfg : ApplicationConfiguration),
      i + todo = cfg.DatabaseConfigurations.length →
      (∃ j e, i ≤ j ∧ cfg.DatabaseConfigurations[j]? = some e ∧
        (hex.DecodeString (L.TrimSpace e.DBPassword)).1.length < 16) →
      (GetConfiguration.loop L key todo i cfg).isPanicked = true
  | 0, i, cfg, hlen, ⟨j, e, hij, he, _⟩ => by
    have := (List.getElem?_eq_some_iff.1 he).1
    omega
  | todo + 1, i, cfg, hlen, ⟨j, e, hij, he, hshort⟩ => by
    have hi : i < cfg.DatabaseConfigurations.length := by omega
    rw [GetConfiguration.loop, List.getElem?_eq_getElem hi]
    simp only []
    rw [DecryptAES_valid L key _ hk]
    by_cases hlong : 16 ≤ (hex.DecodeString
        (L.TrimSpace cfg.DatabaseConfigurations[i].DBPassword)).1.length
    · simp only [if_pos hlong]
      apply GetConfiguration.loop_panics L key hk todo (i + 1)
      · simp only [List.length_set]; omega
      · have hne : j ≠ i := by
          intro hji
          subst hji
          rw [List.getElem?_eq_getElem hi] at he
          cases he
          omega
        exact ⟨j, e, by omega, by
          simp only []
          rw [List.getElem?_set_ne (by omega)]
          exact he, hshort⟩
    · simp only [if_neg hlong, Outcome.isPanicked]

/-- Under a key of valid size the loop of `GetConfiguration` returns without
error when every entry still to be processed has a password that decodes to at
least 16 bytes. -/
theorem GetConfiguration.loop_returns (L : Stdlib) (key : GoString)
    (hk : aes.validKeySize key.length) :
    ∀ (todo i : Nat) (cfg : ApplicationConfiguration),
      i + todo = cfg.DatabaseConfigurations.length →
      (∀ j e, i ≤ j → cfg.DatabaseConfigurations[j]? = some e →
        16 ≤ (hex.DecodeString (L.TrimSpace e.DBPassword)).1.length) →
      ∃ out, GetConfiguration.loop L key todo i cfg = .returned (out, none)
  | 0, i, cfg, _, _ => ⟨cfg, rfl⟩
  | todo + 1, i, cfg, hlen, hall => by
    have hi : i < cfg.DatabaseConfigurations.length := by omega
    have hlong := hall i _ (Nat.le_refl i) (List.getElem?_eq_getElem hi)
    rw [GetConfiguration.loop, List.getElem?_eq_getElem hi]
    simp only []
    rw [DecryptAES_valid L key _ hk]
    simp only [if_pos hlong]
    apply GetConfiguration.loop_returns L key hk todo (i + 1)
    · simp only [List.length_set]; omega
    · intro j e hij he
      simp only [] at he
      rw [List.getElem?_set_ne (by omega)] at he
      exact hall j e (by omega) he

/-- C3. When the file is read and parsed as `cfg` and loading succeeds, the
configuration returned has as many entries as `cfg`, in the same order; entry
`i` is entry `i` of `cfg` with `DBPassword` replaced by what `DecryptAES`
returns for the key and the trimmed `DBPassword`; the three scalar fields
are those of `cfg`. -/
theorem GetConfiguration_decrypts_in_place {σ : Type} (L : Stdlib) (W : World σ)
    (path key content : GoString) (cfg out : ApplicationConfiguration)
    (hread : W.ReadFile path = .ok content) (hparse : L.Unmarshal content = .ok cfg)
    (hload : GetConfiguration L W path key = .returned (out, none)) :
    out.DatabaseConfigurations.length = cfg.DatabaseConfigurations.length ∧
    (∀ i (hi : i < cfg.DatabaseConfigurations.length),
      ∃ pw, DecryptAES L key (L.TrimSpace cfg.DatabaseConfigurations[i].DBPassword)
          = .returned (pw, none) ∧
        out.DatabaseConfigurations[i]? =
          some { cfg.DatabaseConfigurations[i] with DBPassword := pw }) ∧
    out.PapertrailEndPoint = cfg.PapertrailEndPoint ∧
    out.HttpRootPath = cfg.HttpRootPath ∧
    out.HttpServerPort = cfg.HttpServerPort := by
  simp only [GetConfiguration, hread, hparse] at hload
  obtain ⟨h1, h2, h3, h4, _, h6⟩ :=
    GetConfiguration.loop_returned L key _ 0 cfg out (by omega) hload
  refine ⟨h4, ?_, h1, h2, h3⟩
  intro i hi
  obtain ⟨e, pw, he, hpw, hout⟩ := h6 i (Nat.zero_le i) hi
  rw [List.getElem?_eq_getElem hi] at he
  cases he
  exact ⟨pw, hpw, hout⟩

theorem sampleWorld_ReadFile : sampleWorld.ReadFile (str "config.json") = .ok sampleContent := by
  simp only [sampleWorld, if_true]

theorem referenceLib_Unmarshal : referenceLib.Unmarshal sampleContent = .ok sampleParsed := by
  simp only [referenceLib, if_true]

theorem sampleWorld_ReadFile_blank :
    sampleWorld.ReadFile (str "blank.json") = .ok blankContent := by
  have h : ¬ (str "blank.json" = str "config.json") := by decide
  simp only [sampleWorld, if_neg h, if_true]

theorem referenceLib_Unmarshal_blank : referenceLib.Unmarshal blankContent = .ok blankParsed := by
  have h : ¬ (blankContent = sampleContent) := by decide
  simp only [referenceLib, if_neg h, if_true]

/-- Under a key of valid size `GetConfiguration` returns a configuration and
no error when the file is read and parsed and every password decodes, after
trimming, to at least 16 bytes. -/
theorem GetConfiguration_returns {σ : Type} (L : Stdlib) (W : World σ)
    (path key content : GoString) (cfg : ApplicationConfiguration)
    (hk : aes.validKeySize key.length)
    (hread : W.ReadFile path = .ok content) (hparse : L.Unmarshal content = .ok cfg)
    (hlong : ∀ e ∈ cfg.DatabaseConfigurations,
      16 ≤ (hex.DecodeString (L.TrimSpace e.DBPassword)).1.length) :
    ∃ out, GetConfiguration L W path key = .returned (out, none) := by
  simp only [GetConfiguration, hread, hparse]
  exact GetConfiguration.loop_returns L key hk _ 0 cfg (by omega)
    (fun j e _ he => hlong e (List.getElem?_mem he))

/-- The outcome of `GetConfiguration` depends on the world only through what
`ReadFile` yields for the path. -/
theorem GetConfiguration_congr {σ τ : Type} (L : Stdlib) (W : World σ) (W2 : World τ)
    (path key : GoString) (h : W.ReadFile path = W2.ReadFile path) :
    GetConfiguration L W path key = GetConfiguration L W2 path key := by
  unfold GetConfiguration
  rw [h]

/-- What loading the sample file with the key of the test file returns. -/
theorem sample_load :
    GetConfiguration referenceLib sampleWorld (str "config.json") sampleKey
      = .returned (sampleLoaded, none) := by
  decide!

/-- C3, witness: the sample file, loaded with the key of the test file. -/
theorem GetConfiguration_decrypts_in_place_witness :
    sampleLoaded.DatabaseConfigurations.length = sampleParsed.DatabaseConfigurations.length ∧
    (∀ i (hi : i < sampleParsed.DatabaseConfigurations.length),
      ∃ pw, DecryptAES referenceLib sampleKey
          (referenceLib.TrimSpace sampleParsed.DatabaseConfigurations[i].DBPassword)
          = .returned (pw, none) ∧
        sampleLoaded.DatabaseConfigurations[i]? =
          some { sampleParsed.DatabaseConfigurations[i] with DBPassword := pw }) ∧
    sampleLoaded.PapertrailEndPoint = sampleParsed.PapertrailEndPoint ∧
    sampleLoaded.HttpRootPath = sampleParsed.HttpRootPath ∧
    sampleLoaded.HttpServerPort = sampleParsed.HttpServerPort :=
  GetConfiguration_decrypts_in_place referenceLib sampleWorld (str "config.json") sampleKey
    sampleContent sampleParsed sampleLoaded sampleWorld_ReadFile referenceLib_Unmarshal
    sample_load

/-- C10. `DecryptAES` is not total. Under a key of 16, 24 or 32 bytes it
returns exactly when at least 16 bytes were decoded from the ciphertext (the
bytes decoded before any hex error); with fewer, the empty string included,
the block decryption panics, and then `GetConfiguration` panics on a file that
has an entry whose trimmed password decodes to fewer than 16 bytes. Under a
key of any other length `DecryptAES` returns the empty string and the
key-size error. -/
theorem DecryptAES_not_total (L : Stdlib) (key : GoString) :
    (aes.validKeySize key.length →
      (∀ ct, ((DecryptAES L key ct).isReturned = true ↔ 16 ≤ (hex.DecodeString ct).1.length) ∧
        ((hex.DecodeString ct).1.length < 16 →
          DecryptAES L key ct = .panicked (str "crypto/aes: input not full block"))) ∧
      DecryptAES L key (str "") = .panicked (str "crypto/aes: input not full block") ∧
      (∀ (σ : Type) (W : World σ) (path content : GoString) (cfg : ApplicationConfiguration),
        W.ReadFile path = .ok content → L.Unmarshal content = .ok cfg →
        (∃ e ∈ cfg.DatabaseConfigurations,
          (hex.DecodeString (L.TrimSpace e.DBPassword)).1.length < 16) →
        (GetConfiguration L W path key).isPanicked = true)) ∧
    (¬ aes.validKeySize key.length →
      ∀ ct, DecryptAES L key ct = .returned (str "", some (aes.KeySizeError key.length))) := by
  constructor
  · intro hk
    have hct : ∀ ct,
        ((DecryptAES L key ct).isReturned = true ↔ 16 ≤ (hex.DecodeString ct).1.length) ∧
        ((hex.DecodeString ct).1.length < 16 →
          DecryptAES L key ct = .panicked (str "crypto/aes: input not full block")) := by
      intro ct
      rw [DecryptAES_valid L key ct hk]
      by_cases hn : 16 ≤ (hex.DecodeString ct).1.length
      · rw [if_pos hn]
        exact ⟨⟨fun _ => hn, fun _ => rfl⟩, fun h => absurd hn (by omega)⟩
      · rw [if_neg hn]
        exact ⟨⟨fun h => (by simp [Outcome.isReturned] at h), fun h => absurd h hn⟩, fun _ => rfl⟩
    refine ⟨hct, (hct (str "")).2 (by decide), ?_⟩
    intro σ W path content cfg hread hparse ⟨e, he, hshort⟩
    simp only [GetConfiguration, hread, hparse]
    obtain ⟨j, hj, hje⟩ := List.getElem_of_mem he
    exact GetConfiguration.loop_panics L key hk _ 0 cfg (by omega)
      ⟨j, e, Nat.zero_le j, by rw [List.getElem?_eq_getElem hj, hje], hshort⟩
  · intro hk ct
    exact DecryptAES_invalid L key ct hk

/-- C10, witness: under the 32-byte key of the test file the empty
ciphertext makes `DecryptAES` panic and `GetConfiguration` panics on the
sample file whose entry has an empty password; under a 5-byte key
`DecryptAES` returns the key-size error. -/
theorem DecryptAES_not_total_witness :
    DecryptAES referenceLib sampleKey (str "")
      = .panicked (str "crypto/aes: input not full block") ∧
    (GetConfiguration referenceLib sampleWorld (str "blank.json") sampleKey).isPanicked = true ∧
    DecryptAES referenceLib (str "short") (str "")
      = .returned (str "", some (aes.KeySizeError 5)) :=
  ⟨((DecryptAES_not_total referenceLib sampleKey).1 (by decide)).2.1,
    ((DecryptAES_not_total referenceLib sampleKey).1 (by decide)).2.2 Nat sampleWorld
      (str "blank.json") blankContent blankParsed sampleWorld_ReadFile_blank
      referenceLib_Unmarshal_blank ⟨blankParsed.DatabaseConfigurations[0], by decide, by decide⟩,
    (DecryptAES_not_total referenceLib (str "short")).2 (by decide) (str "")⟩

/-! # `InitApplicationHandlerContext` -/

/-- The function `openDB` returns either a pool and no error, or no pool and
an error. -/
theorem openDB_cases {σ : Type} (W : World σ) (s : σ) (dsn : GoString) :
    (∃ db s1, openDB W s dsn = ((some db, none), s1)) ∨
    (∃ err s1, openDB W s dsn = ((none, some err), s1)) := by
  unfold openDB
  split
  · exact Or.inr ⟨_, _, rfl⟩
  · split
    · exact Or.inr ⟨_, _, rfl⟩
    · exact Or.inl ⟨_, _, rfl⟩

/-- Once the lookup resolves, `OpenOTRconnection` returns, whatever the
database does; when it returns an error the pool is `nil`. -/
theorem OpenOTRconnection_returns {σ : Type} (L : Stdlib) (W : World σ) (s : σ)
    (appName : GoString) (cfg : ApplicationConfiguration) (otrname : GoString)
    (otrcfg : DatabaseConnectionConfiguration)
    (h : GetDatabaseConfig L cfg otrname = .returned otrcfg) :
    ∃ r s1, OpenOTRconnection L W s appName cfg otrname true = .returned (r, s1) ∧
      (r.2 ≠ none → r.1 = none) := by
  unfold OpenOTRconnection
  simp only [h]
  rcases openDB_cases W s (str "server=" ++ otrcfg.Server ++ str ";database=" ++ otrcfg.Database
        ++ str ";user id=" ++ otrcfg.DBUsername ++ str ";password=" ++ otrcfg.DBPassword
        ++ str ";connection timeout=300;app name=" ++ appName) with
    ⟨db, s1, ho⟩ | ⟨err, s1, ho⟩
  · rw [ho]
    simp only [if_true]
    rcases hp : W.Ping s1 db with ⟨_ | err, s2⟩
    · exact ⟨_, _, rfl, fun h => absurd rfl h⟩
    · exact ⟨_, _, rfl, fun _ => rfl⟩
  · rw [ho]
    exact ⟨_, _, rfl, fun _ => rfl⟩

/-- The call of `logEntry` in `InitApplicationHandlerContext` finds its
caller: with skip 1 the frame asked for is that of the calling function. -/
theorem logEntry_skip_one (inner self : Frame) (callers : List Frame) (msg : GoString) :
    ∃ line, logEntry (inner :: self :: callers) msg 1 = .returned line := by
  simp [logEntry, runtime.Caller]

/-- C9. When the configuration loads, the dial of the log sink succeeds and
the lookups of "GLS" and "HBL" resolve, `InitApplicationHandlerContext` returns
a context and a `nil` error, whatever the two calls of `OpenOTRconnection`
return: each pool of the context is the pool that call returned, `nil` when
the call returned an error; the context carries the application name given
and the configuration loaded. When loading returns an error, or the dial
fails, it returns no context and an error. -/
theorem InitApplicationHandlerContext_spec {σ : Type} (L : Stdlib) (W : World σ) (s : σ)
    (inner self : Frame) (callers : List Frame) (appname key : GoString) :
    (∀ cfg sl s1 g h,
      GetConfiguration L W (GetConfigurationFileSpec W appname) key = .returned (cfg, none) →
      W.Dial s (str "udp") cfg.PapertrailEndPoint syslog.LOG_ERR appname = (.ok sl, s1) →
      GetDatabaseConfig L cfg (str "GLS") = .returned g →
      GetDatabaseConfig L cfg (str "HBL") = .returned h →
      ∃ gls s2 hbl s3 app,
        OpenOTRconnection L W s1 appname cfg (str "GLS") true = .returned (gls, s2) ∧
        OpenOTRconnection L W s2 appname cfg (str "HBL") true = .returned (hbl, s3) ∧
        InitApplicationHandlerContext L W s inner self callers appname key
          = .returned (some app, none) ∧
        app.ApplicationName = appname ∧ app.configSettings = cfg ∧ app.sysLog = some sl ∧
        app.glsDB = gls.1 ∧ app.hblDB = hbl.1 ∧ app.cacheDB = none ∧
        (gls.2 ≠ none → app.glsDB = none) ∧ (hbl.2 ≠ none → app.hblDB = none)) ∧
    (∀ c err,
      GetConfiguration L W (GetConfigurationFileSpec W appname) key = .returned (c, some err) →
      InitApplicationHandlerContext L W s inner self callers appname key
        = .returned (none, some err)) ∧
    (∀ cfg e s1,
      GetConfiguration L W (GetConfigurationFileSpec W appname) key = .returned (cfg, none) →
      W.Dial s (str "udp") cfg.PapertrailEndPoint syslog.LOG_ERR appname = (.error e, s1) →
      InitApplicationHandlerContext L W s inner self callers appname key
        = .returned (none, some ⟨str "FATAL ERROR: Unable to dial syslog on: "
            ++ cfg.PapertrailEndPoint⟩)) := by
  refine ⟨?_, ?_, ?_⟩
  · intro cfg sl s1 g h hcfg hdial hg hh
    obtain ⟨gls, s2, hgls, hglsnil⟩ := OpenOTRconnection_returns L W s1 appname cfg (str "GLS") g hg
    obtain ⟨hbl, s3, hhbl, hhblnil⟩ := OpenOTRconnection_returns L W s2 appname cfg (str "HBL") h hh
    obtain ⟨line, hline⟩ := logEntry_skip_one inner self callers
      (str "Started Application: " ++ appname ++ str ", with http root: "
        ++ cfg.HttpRootPath ++ str ", on port # " ++ cfg.HttpServerPort)
    refine ⟨gls, s2, hbl, s3, ⟨some sl, gls.1, hbl.1, none, cfg, appname⟩, hgls, hhbl, ?_, rfl, rfl,
      rfl, rfl, rfl, rfl, hglsnil, hhblnil⟩
    unfold InitApplicationHandlerContext
    simp only [hcfg, hdial, hgls, hhbl, hline]
  · intro c err hcfg
    unfold InitApplicationHandlerContext
    simp only [hcfg]
  · intro cfg e s1 hcfg hdial
    unfold InitApplicationHandlerContext
    simp only [hcfg, hdial]

theorem sample_init_load :
    GetConfiguration referenceLib sampleWorld
      (GetConfigurationFileSpec sampleWorld (str "testname")) sampleKey
      = .returned (sampleLoaded, none) := by
  have h : GetConfigurationFileSpec sampleWorld (str "testname") = str "config.json" := by decide
  rw [h]
  exact sample_load

theorem deaf_init_load :
    GetConfiguration referenceLib deafWorld
      (GetConfigurationFileSpec deafWorld (str "testname")) sampleKey
      = .returned (sampleLoaded, none) := by
  have h : GetConfigurationFileSpec deafWorld (str "testname") = str "config.json" := by decide
  rw [h, GetConfiguration_congr referenceLib deafWorld sampleWorld (str "config.json") sampleKey rfl]
  exact sample_load

theorem empty_init_load :
    GetConfiguration referenceLib emptyWorld
      (GetConfigurationFileSpec emptyWorld (str "testname")) sampleKey
      = .returned ({}, some ⟨str "open config.json: no such file or directory"⟩) := by
  decide

/-- C9, witness: in the sample world both pings are refused, so both calls of
`OpenOTRconnection` return an error, and the context is returned all the same;
where the log sink cannot be reached, and where there is no configuration
file, no context is returned but an error. -/
theorem InitApplicationHandlerContext_spec_witness :
    (∃ gls s2 hbl s3 app,
      OpenOTRconnection referenceLib sampleWorld 1 (str "testname") sampleLoaded (str "GLS") true
        = .returned (gls, s2) ∧
      OpenOTRconnection referenceLib sampleWorld s2 (str "testname") sampleLoaded (str "HBL") true
        = .returned (hbl, s3) ∧
      InitApplicationHandlerContext referenceLib sampleWorld 0 logEntryFrame initFrame []
        (str "testname") sampleKey = .returned (some app, none) ∧
      app.ApplicationName = str "testname" ∧ app.configSettings = sampleLoaded ∧
      app.sysLog = some ⟨0⟩ ∧
      app.glsDB = gls.1 ∧ app.hblDB = hbl.1 ∧ app.cacheDB = none ∧
      (gls.2 ≠ none → app.glsDB = none) ∧ (hbl.2 ≠ none → app.hblDB = none)) ∧
    InitApplicationHandlerContext referenceLib deafWorld 0 logEntryFrame initFrame []
        (str "testname") sampleKey
      = .returned (none, some ⟨str "FATAL ERROR: Unable to dial syslog on: "
          ++ sampleLoaded.PapertrailEndPoint⟩) ∧
    InitApplicationHandlerContext referenceLib emptyWorld 0 logEntryFrame initFrame []
        (str "testname") sampleKey
      = .returned (none, some ⟨str "open config.json: no such file or directory"⟩) :=
  ⟨(InitApplicationHandlerContext_spec referenceLib sampleWorld 0 logEntryFrame initFrame []
      (str "testname") sampleKey).1 sampleLoaded ⟨0⟩ 1
      (sampleLoaded.DatabaseConfigurations[0]) (sampleLoaded.DatabaseConfigurations[1])
      sample_init_load rfl (by decide) (by decide),
    (InitApplicationHandlerContext_spec referenceLib deafWorld 0 logEntryFrame initFrame []
      (str "testname") sampleKey).2.2 sampleLoaded ⟨str "dial udp: no such host"⟩ 1
      deaf_init_load rfl,
    (InitApplicationHandlerContext_spec referenceLib emptyWorld 0 logEntryFrame initFrame []
      (str "testname") sampleKey).2.1 {} _ empty_init_load⟩

end GoAppContext
